import Mathlib

/-!
Shallow embedding of the Transactional Integrity subsystem of the
agentswallets CLI: policy engine, spend accounting, idempotency key
manager, operation ledger, audit log and the send/sell orchestration.

Modelling conventions:
* JS `number` is embedded as `ℚ` (exact rationals); `Math.round` is
  Mathlib `round` (round half towards positive infinity, matching JS).
* Strings are Lean `String`; `toUpperCase`/`toLowerCase` act per ASCII
  character, which agrees with JS on the ASCII data this program handles.
* SQLite tables are lists of row structures; SQL `UPDATE`/`DELETE` become
  `List.map`/`List.filter`; TEXT comparison is lexicographic, as SQLite.
* Timestamps: operation rows keep ISO-8601 strings (compared
  lexicographically, as the SQL does); idempotency rows keep epoch
  milliseconds (the source computes ages numerically via `Date.now()`).
* External collaborators (node crypto SHA-256, the redaction utility from
  util/redact, JSON.stringify, uuid, the chain client and the Polymarket
  adapter) are passed in as explicit parameters or outcome values.
* `AppError` is embedded by its `code`; human-readable messages and the
  structured `details` payload are presentation data and are elided.
-/

namespace AW

/-- JS `String.prototype.toUpperCase`, per ASCII character. -/
def jsToUpper (s : String) : String := ⟨s.data.map Char.toUpper⟩

/-- JS `String.prototype.toLowerCase`, per ASCII character. -/
def jsToLower (s : String) : String := ⟨s.data.map Char.toLower⟩

/-- Strict lexicographic order on char lists (memcmp order; the stored
timestamps are ASCII ISO-8601 strings, where codepoint order equals
SQLite byte order). -/
def charListLt : List Char → List Char → Bool
  | _, [] => false
  | [], _ :: _ => true
  | a :: as, b :: bs => if a < b then true else if b < a then false else charListLt as bs

/-- SQLite TEXT `a >= b`. -/
def strGe (a b : String) : Bool := !(charListLt a.data b.data)

/-- Case-insensitive substring test over char lists, used to embed the
case-insensitive regex literals of the source (`/insufficient funds/i`
and similar alternations of plain words). -/
def hasInfix (pat : List Char) : List Char → Bool
  | [] => pat.isEmpty
  | c :: t => pat.isPrefixOf (c :: t) || hasInfix pat t

/-- `containsCI s pat`: does `s` contain `pat`, ignoring ASCII case. -/
def containsCI (s pat : String) : Bool :=
  hasInfix (jsToLower pat).data (jsToLower s).data

/-- Embedded `AppError` (core/errors.ts): identified by its error code. -/
structure AppError where
  code : String
deriving Repr, DecidableEq

/-! ## PolicyEngine (core/policy-engine.ts) -/

/-- PolicyConfig (core/types.ts): a `null` field means unlimited. -/
structure PolicyConfig where
  daily_limit : Option ℚ
  per_tx_limit : Option ℚ
  max_tx_per_day : Option ℤ
  allowed_tokens : List String
  allowed_addresses : List String
  require_approval_above : Option ℚ
deriving Repr, DecidableEq

/-- SpendStats as consumed by the policy engine. -/
structure SpendStats where
  todaySpent : ℚ
  todayTxCount : ℤ
deriving Repr, DecidableEq

/-- Input record of `evaluatePolicy`. -/
structure EvalInput where
  policy : PolicyConfig
  token : String
  amount : ℚ
  toAddress : Option String := none
  stats : SpendStats
  skipSpendLimits : Bool := false
deriving Repr, DecidableEq

/-- PolicyDecision: `allowed`, or `denied` with a code (message and
details payloads elided). -/
inductive PolicyDecision where
  | allowed
  | denied (code : String)
deriving Repr, DecidableEq

/-- M-8 helper: convert to integer micro-units (`Math.round(n * 1e6)`). -/
def toMicroUnits (n : ℚ) : ℤ := round (n * 1000000)

/-- Token alias normalization: uppercase, except the bridged-USDC alias
`USDC.E` is written back as `USDC.e`. -/
def normalizeToken (t : String) : String :=
  let upper := jsToUpper t
  if upper == "USDC.E" then "USDC.e" else upper

/-- Check 1: token allowlist (empty list allows any token). -/
def tokenCheckFails (input : EvalInput) : Bool :=
  let token := normalizeToken input.token
  let allowedTokens := input.policy.allowed_tokens.map normalizeToken
  allowedTokens.length > 0 && !(allowedTokens.contains token)

/-- Check 2: destination allowlist; the source guards with JS truthiness
(`if (input.toAddress)`), so a missing or empty address skips the check;
an empty allowlist allows any address. -/
def addrCheckFails (input : EvalInput) : Bool :=
  match input.toAddress with
  | none => false
  | some toAddr =>
    if toAddr == "" then false
    else
      let allowedAddresses := input.policy.allowed_addresses.map jsToLower
      allowedAddresses.length > 0 && !(allowedAddresses.contains (jsToLower toAddr))

/-- Check 3: per-transaction ceiling, in micro-units. -/
def perTxCheckFails (input : EvalInput) : Bool :=
  match input.policy.per_tx_limit with
  | none => false
  | some lim => decide (toMicroUnits input.amount > toMicroUnits lim)

/-- Check 4: daily ceiling; the source rounds the JS sum
`todaySpent + amount` to micro-units and compares with the rounded limit. -/
def dailyCheckFails (input : EvalInput) : Bool :=
  match input.policy.daily_limit with
  | none => false
  | some lim =>
    decide (toMicroUnits (input.stats.todaySpent + input.amount) > toMicroUnits lim)

/-- Check 5 (L-2): approval threshold, in micro-units. -/
def approvalCheckFails (input : EvalInput) : Bool :=
  match input.policy.require_approval_above with
  | none => false
  | some thr => decide (toMicroUnits input.amount > toMicroUnits thr)

/-- Check 6: transaction-count ceiling (plain integer comparison). -/
def txCountCheckFails (input : EvalInput) : Bool :=
  match input.policy.max_tx_per_day with
  | none => false
  | some maxTx => decide (input.stats.todayTxCount + 1 > maxTx)

/-- `evaluatePolicy` (core/policy-engine.ts): the early-return chain of the
source, checks 3 to 5 gated on `!skipSpendLimits`. -/
def evaluatePolicy (input : EvalInput) : PolicyDecision :=
  if tokenCheckFails input then .denied "ERR_TOKEN_NOT_ALLOWED"
  else if addrCheckFails input then .denied "ERR_ADDRESS_NOT_ALLOWED"
  else if !input.skipSpendLimits && perTxCheckFails input then
    .denied "ERR_PER_TX_LIMIT_EXCEEDED"
  else if !input.skipSpendLimits && dailyCheckFails input then
    .denied "ERR_DAILY_LIMIT_EXCEEDED"
  else if !input.skipSpendLimits && approvalCheckFails input then
    .denied "ERR_APPROVAL_THRESHOLD_EXCEEDED"
  else if txCountCheckFails input then .denied "ERR_TX_COUNT_LIMIT_EXCEEDED"
  else .allowed

/-- First-failure-wins over an ordered list of (fails?, code) checks.
Spec-side combinator for section 4.1 of the spec. -/
def firstFailure : List (Bool × String) → PolicyDecision
  | [] => .allowed
  | (b, code) :: rest => if b then .denied code else firstFailure rest

/-- Modelled from the spec (section 4.1): the six checks in their fixed
order — token allowlist, destination allowlist, per-tx ceiling, daily
ceiling, approval threshold, transaction-count ceiling — with the three
spend checks gated on `skipSpendLimits`. -/
def evaluatePolicySpec (input : EvalInput) : PolicyDecision :=
  firstFailure
    [(tokenCheckFails input, "ERR_TOKEN_NOT_ALLOWED"),
     (addrCheckFails input, "ERR_ADDRESS_NOT_ALLOWED"),
     (!input.skipSpendLimits && perTxCheckFails input, "ERR_PER_TX_LIMIT_EXCEEDED"),
     (!input.skipSpendLimits && dailyCheckFails input, "ERR_DAILY_LIMIT_EXCEEDED"),
     (!input.skipSpendLimits && approvalCheckFails input, "ERR_APPROVAL_THRESHOLD_EXCEEDED"),
     (txCountCheckFails input, "ERR_TX_COUNT_LIMIT_EXCEEDED")]

/-! ## Data model (core/schema.ts)

NULLable columns are `Option`; `operations.amount` is a TEXT column
holding `String(amount)` of a JS number and is read back with
`CAST(amount AS REAL)` — that round-trip is the identity on the numeric
value, so the model stores the number itself. `idempotency_keys.created_at`
is kept as epoch milliseconds because the source only uses it through
`Date.now() - new Date(created_at).getTime()`. -/

/-- Row of the `operations` table (`status` is NOT NULL). -/
structure OperationRow where
  tx_id : String
  wallet_id : String
  kind : String
  status : String
  token : Option String
  amount : Option ℚ
  to_address : Option String
  tx_hash : Option String
  provider_order_id : Option String
  idempotency_key : Option String
  meta_json : Option String
  created_at : String
  updated_at : String
deriving Repr, DecidableEq

/-- Row of the `idempotency_keys` table. -/
structure IdempotencyKeyRow where
  key : String
  scope : String
  ref_id : Option String
  status : String
  created_at : ℤ
deriving Repr, DecidableEq

/-- Row of the `audit_logs` table. `prev_hash` and `entry_hash` are
nullable in the schema but `logAudit` always writes them, so rows
produced by the embedded insert path carry plain strings. -/
structure AuditLogRow where
  id : String
  wallet_id : Option String
  action : String
  request_json : String
  decision : String
  result_json : Option String
  error_code : Option String
  prev_hash : String
  entry_hash : String
  created_at : String
deriving Repr, DecidableEq

/-- The shared store: the three tables the Transactional Integrity
subsystem touches (list order is SQLite rowid insertion order). -/
structure DbState where
  operations : List OperationRow
  idempotency_keys : List IdempotencyKeyRow
  audit_logs : List AuditLogRow
deriving Repr, DecidableEq

/-! ## SpendAccounting (core/tx-service.ts, dailySpendStats) -/

/-- Active statuses counted by the spend queries. -/
def activeStatuses : List String :=
  ["pending", "broadcasted", "confirmed", "submitted", "filled"]

/-- Shared WHERE clause of both spend queries: wallet match, UTC-day
window, active status. -/
def inTodayWindow (walletId dayStart : String) (op : OperationRow) : Bool :=
  op.wallet_id == walletId && strGe op.created_at dayStart &&
    activeStatuses.contains op.status

/-- `dailySpendStats` (core/tx-service.ts): per-token spend sum over the
uppercased token argument, global transaction count across all tokens.
`dayStart` is `new Date().toISOString().slice(0, 10) + 'T00:00:00.000Z'`. -/
def dailySpendStats (ops : List OperationRow) (walletId token nowIso : String) :
    SpendStats :=
  let dayStart : String := ⟨nowIso.data.take 10⟩ ++ "T00:00:00.000Z"
  let upperToken := jsToUpper token
  let spendRows := ops.filter
    (fun op => inTodayWindow walletId dayStart op && op.token == some upperToken)
  let countRows := ops.filter (fun op => inTodayWindow walletId dayStart op)
  { todaySpent := (spendRows.map (fun op => op.amount.getD 0)).sum,
    todayTxCount := (countRows.length : ℤ) }

/-! ## IdempotencyKeyManager (util/idempotency.ts) -/

/-- Key-shape validation: the regex `^[a-zA-Z0-9_-]{1,256}$`. The two
preceding emptiness/whitespace checks of the source throw the same
`ERR_INVALID_PARAMS` and are subsumed by the regex (a regex-valid key is
nonempty and whitespace-free), so behaviourally one test suffices. -/
def isValidIdempotencyKey (s : String) : Bool :=
  decide (1 ≤ s.length) && decide (s.length ≤ 256) &&
    s.data.all (fun c => c.isAlphanum || c == '_' || c == '-')

/-- Lookup in `idempotency_keys` by primary key. -/
def findKeyRow (rows : List IdempotencyKeyRow) (key : String) :
    Option IdempotencyKeyRow :=
  rows.find? (fun r => r.key == key)

/-- Stale-reclaim horizon: 48 hours in milliseconds. -/
def staleReclaimMs : ℤ := 48 * 3600000

/-- `reserveIdempotencyKey` (util/idempotency.ts). The INSERT conflicts
exactly when a row with the key exists; on conflict: different scope is
rejected, a `reserved` row older than 48h is deleted and re-reserved,
anything else is a silent no-op (the replay path). -/
def reserveIdempotencyKey (st : DbState) (key scope : String) (nowMs : ℤ) :
    Except AppError DbState :=
  if !(isValidIdempotencyKey key) then .error ⟨"ERR_INVALID_PARAMS"⟩
  else
    match findKeyRow st.idempotency_keys key with
    | none =>
      .ok { st with idempotency_keys :=
              st.idempotency_keys ++ [⟨key, scope, none, "reserved", nowMs⟩] }
    | some row =>
      if row.scope != scope then .error ⟨"ERR_INVALID_PARAMS"⟩
      else if row.status == "reserved" && decide (nowMs - row.created_at > staleReclaimMs) then
        .ok { st with idempotency_keys :=
                (st.idempotency_keys.filter (fun r => r.key != key)) ++
                  [⟨key, scope, none, "reserved", nowMs⟩] }
      else .ok st

/-- `getOperationByIdempotencyKey` (util/idempotency.ts): the ledger row
bound to the key, if any (the source selects a column subset; the model
returns the row and projects at use sites). -/
def getOperationByIdempotencyKey (ops : List OperationRow) (key : String) :
    Option OperationRow :=
  ops.find? (fun op => op.idempotency_key == some key)

/-! ## OperationLedger (core/tx-service.ts) -/

/-- `createPendingProviderOperation`: insert a `pending` operation before
any external call (`txId` is the external uuid). -/
def createPendingProviderOperation (st : DbState) (txId walletId kind token : String)
    (amount : ℚ) (toAddress : Option String) (key metaJson nowIso : String) : DbState :=
  { st with operations := st.operations ++
      [{ tx_id := txId, wallet_id := walletId, kind := kind, status := "pending",
         token := some token, amount := some amount, to_address := toAddress,
         tx_hash := none, provider_order_id := none, idempotency_key := some key,
         meta_json := some metaJson, created_at := nowIso, updated_at := nowIso }] }

/-- `UPDATE operations SET status=?, updated_at=? WHERE tx_id=?`. -/
def updateOperationStatus (ops : List OperationRow) (txId status nowIso : String) :
    List OperationRow :=
  ops.map (fun op =>
    if op.tx_id == txId then { op with status := status, updated_at := nowIso } else op)

/-- `UPDATE idempotency_keys SET ref_id=?, status='completed' WHERE key=?`. -/
def completeIdempotencyKey (rows : List IdempotencyKeyRow) (key refId : String) :
    List IdempotencyKeyRow :=
  rows.map (fun r =>
    if r.key == key then { r with ref_id := some refId, status := "completed" } else r)

/-- `finalizeProviderOperation`: one transaction that updates the
operation and completes its idempotency key. -/
def finalizeProviderOperation (st : DbState) (txId status : String)
    (providerOrderId : Option String) (key nowIso : String) : DbState :=
  { st with
    operations := st.operations.map (fun op =>
      if op.tx_id == txId then
        { op with status := status, provider_order_id := providerOrderId,
                  updated_at := nowIso }
      else op),
    idempotency_keys := completeIdempotencyKey st.idempotency_keys key txId }

/-! ## AuditLog (core/audit-service.ts)

The SHA-256 digest (node:crypto) and the redaction pass
(util/redact.ts `redactSecrets`) are external collaborators of this
subsystem and enter the model as explicit function parameters. -/

/-- 64KB cap on audit payloads before hashing. -/
def MAX_AUDIT_JSON : ℕ := 65536

/-- `capJson`: truncate oversized payloads (kept in characters; the
payloads of interest are ASCII, where JS length equals char count). -/
def capJson (json : String) : String :=
  if json.length > MAX_AUDIT_JSON then
    (⟨json.data.take MAX_AUDIT_JSON⟩ : String) ++ "...[truncated]"
  else json

/-- The 64-zero-character genesis sentinel (`'0'.repeat(64)`). -/
def zeros64 : String := ⟨List.replicate 64 '0'⟩

/-- Input record of `logAudit`; `requestJson`/`resultJson` are the
`JSON.stringify` serializations (stringification is external). -/
structure AuditInput where
  wallet_id : Option String
  action : String
  requestJson : String
  decision : String
  resultJson : Option String
  error_code : Option String
deriving Repr, DecidableEq

/-- `logAudit` (core/audit-service.ts): within one transaction, read the
last `entry_hash` (or the zero sentinel), hash
`prev_hash ++ id ++ action ++ request_json ++ decision ++ created_at`,
and insert. `id` is the external uuid, `nowIso` the timestamp. -/
def logAudit (sha256 redactSecrets : String → String) (st : DbState)
    (inp : AuditInput) (id nowIso : String) : DbState :=
  let requestJson := capJson (redactSecrets inp.requestJson)
  let resultJson := inp.resultJson.map (fun r => capJson (redactSecrets r))
  let prevHash := match st.audit_logs.getLast? with
    | some lastRow => lastRow.entry_hash
    | none => zeros64
  let entryHash :=
    sha256 (prevHash ++ id ++ inp.action ++ requestJson ++ inp.decision ++ nowIso)
  { st with audit_logs := st.audit_logs ++
      [{ id := id, wallet_id := inp.wallet_id, action := inp.action,
         request_json := requestJson, decision := inp.decision,
         result_json := resultJson, error_code := inp.error_code,
         prev_hash := prevHash, entry_hash := entryHash, created_at := nowIso }] }

/-- A sequence of audit appends (each with its own uuid and timestamp). -/
def auditChain (sha256 redactSecrets : String → String) (st : DbState)
    (inputs : List (AuditInput × String × String)) : DbState :=
  inputs.foldl (fun s t => logAudit sha256 redactSecrets s t.1 t.2.1 t.2.2) st

/-! ## Chain-send execution (core/tx-service.ts, executeSend)

The chain client is external: its observable outcomes (chain-id
verification, preflight balance check, the decrypt+sign+broadcast phase,
the receipt wait) enter as an environment record. The failure
classification regexes of the source are embedded as case-insensitive
substring tests. -/

/-- `/execution reverted|replacement transaction underpriced|nonce|intrinsic gas too low/i`. -/
def isTxFailedMessage (raw : String) : Bool :=
  containsCI raw "execution reverted" ||
    containsCI raw "replacement transaction underpriced" ||
    containsCI raw "nonce" || containsCI raw "intrinsic gas too low"

/-- `/timeout|network|ECONN|ENOTFOUND|503|429/i` of `mapRpcError`. -/
def isRpcUnavailableMessage (raw : String) : Bool :=
  containsCI raw "timeout" || containsCI raw "network" || containsCI raw "ECONN" ||
    containsCI raw "ENOTFOUND" || containsCI raw "503" || containsCI raw "429"

/-- `mapRpcError` (core/rpc.ts), by resulting error code. -/
def mapRpcErrorCode (raw : String) : String :=
  if containsCI raw "insufficient funds" then "ERR_INSUFFICIENT_FUNDS"
  else if isRpcUnavailableMessage raw then "ERR_RPC_UNAVAILABLE"
  else "ERR_INTERNAL"

/-- The catch-block classification of `executeSend`: insufficient funds,
then transaction failure, then `mapRpcError`. -/
def classifySendFailure (raw : String) : String :=
  if containsCI raw "insufficient funds" then "ERR_INSUFFICIENT_FUNDS"
  else if isTxFailedMessage raw then "ERR_TX_FAILED"
  else mapRpcErrorCode raw

/-- External outcomes consumed by one `executeSend` run.
`execPhase` covers the try block up to the broadcast: an `.error` carries
the raw thrown message, an `.ok` the transaction hash. `receipt` is
`none` when the wait itself threw (swallowed), `some none` for a null
receipt within the timeout, `some (some b)` for a receipt with
`status == 1` iff `b`. -/
structure ExecSendEnv where
  verifyChain : Option AppError
  preflight : Option AppError
  execPhase : Except String String
  receipt : Option (Option Bool)
  nowBroadcast : String
  nowReceipt : String
  nowFail : String
deriving Repr

instance {ε α : Type} [DecidableEq ε] [DecidableEq α] : DecidableEq (Except ε α) :=
  fun a b =>
    match a, b with
    | .error e1, .error e2 =>
      if h : e1 = e2 then isTrue (by rw [h]) else isFalse (by simp [h])
    | .error _, .ok _ => isFalse (by simp)
    | .ok _, .error _ => isFalse (by simp)
    | .ok v1, .ok v2 =>
      if h : v1 = v2 then isTrue (by rw [h]) else isFalse (by simp [h])

/-- Result record of a send (amount kept as the numeric value whose
string form the source returns; the field named `to` in the source is
`toAddr` here because `to` is reserved). -/
structure SendResult where
  tx_id : String
  tx_hash : Option String
  status : String
  token : String
  amount : ℚ
  toAddr : String
  dry_run : Bool := false
deriving Repr, DecidableEq

/-- `executeSend` (core/tx-service.ts), as invoked by the orchestration
(`txId` of the pending row always supplied, so the standalone-entry
branch that inserts its own pending row is not reachable and is not
modelled; wallet lookup and password entry are external). The result
state is returned alongside the outcome because the status updates
commit even when the call ends in a thrown, classified error. -/
def executeSend (env : ExecSendEnv) (st : DbState) (token : String) (amount : ℚ)
    (toAddr key txId : String) : Except AppError SendResult × DbState :=
  match env.verifyChain with
  | some e => (.error e, st)
  | none =>
    match env.preflight with
    | some e => (.error e, st)
    | none =>
      match env.execPhase with
      | .error raw =>
        (.error ⟨classifySendFailure raw⟩,
         { st with operations := updateOperationStatus st.operations txId "failed" env.nowFail })
      | .ok txHash =>
        let st1 : DbState :=
          { st with
            operations := st.operations.map (fun op =>
              if op.tx_id == txId then
                { op with status := "broadcasted", tx_hash := some txHash,
                          updated_at := env.nowBroadcast }
              else op),
            idempotency_keys := completeIdempotencyKey st.idempotency_keys key txId }
        match env.receipt with
        | none =>
          (.ok { tx_id := txId, tx_hash := some txHash, status := "broadcasted",
                 token := token, amount := amount, toAddr := toAddr }, st1)
        | some none =>
          (.ok { tx_id := txId, tx_hash := some txHash, status := "broadcasted",
                 token := token, amount := amount, toAddr := toAddr }, st1)
        | some (some okReceipt) =>
          let finalStatus := if okReceipt then "confirmed" else "failed"
          (.ok { tx_id := txId, tx_hash := some txHash, status := finalStatus,
                 token := token, amount := amount, toAddr := toAddr },
           { st1 with operations :=
               updateOperationStatus st1.operations txId finalStatus env.nowReceipt })

/-! ## Orchestration: the shared atomic decide phase

`txSendCommand`, `polyBuyCommand` and `polySellCommand` each run the same
transaction body under an IMMEDIATE lock: reserve the idempotency key,
short-circuit on a replayed non-pending non-failed operation, otherwise
delete a failed/pending leftover with its key row and re-reserve, then
read spend stats, evaluate policy (audit-logging a denial before
aborting) and insert the pending operation. The three source copies
differ only in scope/kind/token/address/skip-flag and in the projection
built from the replayed row; the model shares the body and returns the
raw replayed row, each command building its own projection.

better-sqlite3 rolls the whole transaction back when the body throws, so
every `.error` outcome leaves the entry state; in particular a denial
also rolls back its own audit row and the key reservation.

The event trace records which side-effecting collaborators the run
invoked: `policyEval` for `evaluatePolicy`, `ledgerInsert` for the
pending INSERT, `externalCall` for the chain/provider call,
`auditAppend` for `logAudit`. -/

/-- Observable collaborator invocations of one command run. -/
inductive Event where
  | policyEval
  | ledgerInsert
  | externalCall
  | auditAppend
deriving Repr, DecidableEq

/-- Outcome, post-commit store and event trace of one command run. -/
structure CmdOut (α : Type) where
  res : Except AppError α
  db : DbState
  events : List Event
deriving Repr, DecidableEq

/-- Outcome of the atomic decide phase: a replayed row or a fresh
pending operation id. -/
inductive AtomicRes where
  | replay (row : OperationRow)
  | created (txId : String)
deriving Repr, DecidableEq

/-- Inputs of the atomic phase that come from outside the store: the
policy snapshot (WalletStore), clock readings, fresh uuid, serialized
metadata/request payloads, audit uuid/timestamp, and the external hash
and redaction functions used by a denial audit entry. -/
structure AtomicEnv where
  policy : PolicyConfig
  nowMs : ℤ
  nowIso : String
  freshTxId : String
  metaJson : String
  reqJson : String
  auditId : String
  auditNow : String
  sha256 : String → String
  redactSecrets : String → String

/-- Tail of the atomic body after replay handling: spend stats, policy
evaluation (with a rolled-back denial audit), pending insert. `st0` is
the state at transaction entry (restored on abort), `st` the current
in-transaction state. -/
def atomicTail (env : AtomicEnv) (st0 st : DbState)
    (walletId kind token : String) (amount : ℚ) (toAddress : Option String)
    (skipLimits : Bool) (key : String) : CmdOut AtomicRes :=
  let stats := dailySpendStats st.operations walletId token env.nowIso
  match evaluatePolicy { policy := env.policy, token := token, amount := amount,
                         toAddress := toAddress, stats := stats,
                         skipSpendLimits := skipLimits } with
  | .denied code =>
    ⟨.error ⟨code⟩, st0, [.policyEval, .auditAppend]⟩
  | .allowed =>
    ⟨.ok (.created env.freshTxId),
     createPendingProviderOperation st env.freshTxId walletId kind token amount
       toAddress key env.metaJson env.nowIso,
     [.policyEval, .ledgerInsert]⟩

/-- The shared transaction body (`db.transaction(() => ...)` of
tx.ts/poly.ts): reserve, replay or clean-and-retry, then `atomicTail`. -/
def orchestrationAtomic (env : AtomicEnv) (st : DbState)
    (walletId scope kind token : String) (amount : ℚ)
    (toAddress : Option String) (skipLimits : Bool) (key : String) :
    CmdOut AtomicRes :=
  match reserveIdempotencyKey st key scope env.nowMs with
  | .error e => ⟨.error e, st, []⟩
  | .ok st1 =>
    match getOperationByIdempotencyKey st1.operations key with
    | some existing =>
      if existing.status != "failed" && existing.status != "pending" then
        ⟨.ok (.replay existing), st1, []⟩
      else
        let st2 : DbState :=
          { st1 with
            operations := st1.operations.filter (fun op => op.tx_id != existing.tx_id) }
        let st3 : DbState :=
          { st2 with
            idempotency_keys := st2.idempotency_keys.filter (fun r => r.key != key) }
        match reserveIdempotencyKey st3 key scope env.nowMs with
        | .error e => ⟨.error e, st, []⟩
        | .ok st4 =>
          atomicTail env st st4 walletId kind token amount toAddress skipLimits key
    | none =>
      atomicTail env st st1 walletId kind token amount toAddress skipLimits key

/-! ## Command handlers (commands/tx.ts, commands/poly.ts)

Session gate, address validation (ethers `isAddress`), master-password
entry, wallet lookup and the provider adapter are external; their
outcomes are supplied in the command environment. Validation failures
precede any transaction, replay short-circuits before the external
phase, and the sent-audit append follows a successful external call. -/

/-- Options of `txSendCommand` after `requirePositiveNumber` parsed the
amount (the source field `to` is `toAddr` here, `to` being reserved). -/
structure TxSendOpts where
  toAddr : String
  token : String
  amount : ℚ
  idempotencyKey : String
  dryRun : Bool := false
deriving Repr, DecidableEq

/-- Environment of one `txSendCommand` run. -/
structure SendCmdEnv where
  atomic : AtomicEnv
  sessionValid : Bool
  addrValid : Bool
  exec : ExecSendEnv
  stringifySendResult : SendResult → String

/-- Continuation of `txSendCommand` after the atomic decide phase: error
propagation, the replay projection, or the external broadcast via
`executeSend` followed by the sent audit entry. -/
def txSendFinish (env : SendCmdEnv) (walletId : String) (opts : TxSendOpts)
    (token : String) (a : CmdOut AtomicRes) : CmdOut SendResult :=
  match a.res with
  | .error e => ⟨.error e, a.db, a.events⟩
  | .ok (.replay existing) =>
    ⟨.ok { tx_id := existing.tx_id, tx_hash := existing.tx_hash,
           status := existing.status, token := existing.token.getD token,
           amount := existing.amount.getD opts.amount,
           toAddr := existing.to_address.getD opts.toAddr }, a.db, a.events⟩
  | .ok (.created txId) =>
    match executeSend env.exec a.db token opts.amount opts.toAddr
      opts.idempotencyKey txId with
    | (.error e, db2) => ⟨.error e, db2, a.events ++ [.externalCall]⟩
    | (.ok sendRes, db2) =>
      let db3 := logAudit env.atomic.sha256 env.atomic.redactSecrets db2
        ⟨some walletId, "tx.send", env.atomic.reqJson, "sent",
         some (env.stringifySendResult sendRes), none⟩
        env.atomic.auditId env.atomic.auditNow
      ⟨.ok sendRes, db3, a.events ++ [.externalCall, .auditAppend]⟩

/-- Token normalization of `txSendCommand`: uppercase, the bridged alias
written back as `USDC.e`. -/
def txSendNormalizedToken (opts : TxSendOpts) : String :=
  let tokenUpper := jsToUpper opts.token
  if tokenUpper == "USDC.E" || opts.token == "USDC.e" then "USDC.e" else tokenUpper

/-- The `--token must be POL|USDC|USDC.e` guard of `txSendCommand`. -/
def txSendTokenAllowed (opts : TxSendOpts) : Bool :=
  txSendNormalizedToken opts == "POL" || txSendNormalizedToken opts == "USDC" ||
    txSendNormalizedToken opts == "USDC.e"

/-- `txSendCommand` (commands/tx.ts): session gate, token/address/amount
validation, dry-run, the atomic decide phase (scope `tx_send`), then the
external broadcast via `executeSend` and the sent audit entry. A replayed
row projects to `{tx_id, tx_hash, status, token, amount, to}` with
`??`-defaults from the request (`status ?? 'broadcasted'` is the status
itself, the column being NOT NULL). -/
def txSendCommand (env : SendCmdEnv) (st : DbState) (walletId : String)
    (opts : TxSendOpts) : CmdOut SendResult :=
  if !env.sessionValid then ⟨.error ⟨"ERR_NEED_UNLOCK"⟩, st, []⟩
  else
    let token := txSendNormalizedToken opts
    if !(txSendTokenAllowed opts) then
      ⟨.error ⟨"ERR_INVALID_PARAMS"⟩, st, []⟩
    else if !env.addrValid then ⟨.error ⟨"ERR_INVALID_PARAMS"⟩, st, []⟩
    else if decide (opts.amount ≤ 0) then ⟨.error ⟨"ERR_INVALID_PARAMS"⟩, st, []⟩
    else if opts.dryRun then
      let stats := dailySpendStats st.operations walletId token env.atomic.nowIso
      match evaluatePolicy { policy := env.atomic.policy, token := token,
                             amount := opts.amount, toAddress := some opts.toAddr,
                             stats := stats, skipSpendLimits := false } with
      | .denied code => ⟨.error ⟨code⟩, st, [.policyEval]⟩
      | .allowed =>
        ⟨.ok { tx_id := "", tx_hash := none, status := "dry_run", token := token,
               amount := opts.amount, toAddr := opts.toAddr, dry_run := true },
         st, [.policyEval]⟩
    else
      txSendFinish env walletId opts token
        (orchestrationAtomic env.atomic st walletId "tx_send" "send" token
          opts.amount (some opts.toAddr) false opts.idempotencyKey)

/-- Outcome of a successful adapter call (`adapter.buy`/`adapter.sell`). -/
structure AdapterOutcome where
  provider_order_id : Option String
  provider_status : Option String
  dataJson : String
deriving Repr, DecidableEq

/-- Result record of a provider order command. -/
structure PolyResult where
  tx_id : String
  provider_order_id : Option String
  provider_status : String
  orderJson : String
  dry_run : Bool := false
deriving Repr, DecidableEq

/-- The literal `'{}'` fallback used when parsing stored metadata. -/
def emptyJsonObject : String := "\x7b\x7d"

/-- JS truthiness filter used by `finalizeProviderOperation` call sites
(`result.provider_order_id ? String(...) : undefined`). -/
def truthyString (o : Option String) : Option String :=
  match o with
  | some s => if s == "" then none else some s
  | none => none

/-- Environment of one provider-order command run. `preflight` is the
USDC.e balance check (buy only), `decrypt` the vault decryption outcome,
`adapter` the subprocess adapter outcome (its failures arrive already
classified as `AppError`s by the adapter). -/
structure PolyCmdEnv where
  atomic : AtomicEnv
  sessionValid : Bool
  preflight : Option AppError
  decrypt : Option AppError
  adapter : Except AppError AdapterOutcome
  stringifyPolyResult : PolyResult → String

/-- Replay projection shared by `polyBuyCommand` and `polySellCommand`:
`{tx_id, provider_order_id ?? undefined, provider_status: status ?? 'submitted',
order: JSON.parse(meta_json ?? '{}')}` (the parsed metadata is carried as
its raw JSON text). -/
def polyReplayResult (existing : OperationRow) : PolyResult :=
  { tx_id := existing.tx_id, provider_order_id := existing.provider_order_id,
    provider_status := existing.status,
    orderJson := existing.meta_json.getD emptyJsonObject }

/-- External phase shared by buy and sell, after the preflight gate:
decrypt and adapter failures propagate uncaught — the pending operation
is left untouched — while a successful adapter call is finalized to
`submitted` and audit-logged as sent. -/
def polyExternalRest (env : PolyCmdEnv) (db : DbState) (walletId action : String)
    (txId key : String) (events : List Event) : CmdOut PolyResult :=
  match env.decrypt with
  | some e => ⟨.error e, db, events ++ [.externalCall]⟩
  | none =>
    match env.adapter with
    | .error e => ⟨.error e, db, events ++ [.externalCall]⟩
    | .ok out =>
      let db2 := finalizeProviderOperation db txId "submitted"
        (truthyString out.provider_order_id) key env.atomic.nowIso
      let result : PolyResult :=
        { tx_id := txId, provider_order_id := out.provider_order_id,
          provider_status := out.provider_status.getD "submitted",
          orderJson := out.dataJson }
      let db3 := logAudit env.atomic.sha256 env.atomic.redactSecrets db2
        ⟨some walletId, action, env.atomic.reqJson, "sent",
         some (env.stringifyPolyResult result), none⟩
        env.atomic.auditId env.atomic.auditNow
      ⟨.ok result, db3, events ++ [.externalCall, .auditAppend]⟩

/-- Preflight gate of the buy path in front of `polyExternalRest`. -/
def polyExternalPhase (env : PolyCmdEnv) (db : DbState) (walletId action : String)
    (txId key : String) (events : List Event) (withPreflight : Bool) :
    CmdOut PolyResult :=
  if withPreflight then
    match env.preflight with
    | some e => ⟨.error e, db, events ++ [.externalCall]⟩
    | none => polyExternalRest env db walletId action txId key events
  else polyExternalRest env db walletId action txId key events

/-- Continuation shared by `polyBuyCommand` and `polySellCommand` after
the atomic decide phase: error propagation, the replay projection, or the
external phase. -/
def polyFinish (env : PolyCmdEnv) (walletId action key : String)
    (withPreflight : Bool) (a : CmdOut AtomicRes) : CmdOut PolyResult :=
  match a.res with
  | .error e => ⟨.error e, a.db, a.events⟩
  | .ok (.replay existing) => ⟨.ok (polyReplayResult existing), a.db, a.events⟩
  | .ok (.created txId) =>
    polyExternalPhase env a.db walletId action txId key a.events withPreflight

/-- Options of `polyBuyCommand` after numeric parsing. -/
structure PolyBuyOpts where
  market : String
  outcome : String
  size : ℚ
  price : ℚ
  idempotencyKey : String
  dryRun : Bool := false
deriving Repr, DecidableEq

/-- `polyBuyCommand` (commands/poly.ts): session gate, outcome/size/price
validation, `amount = Math.round(size*price*1e6)/1e6`, dry-run, atomic
decide phase (scope `predict_buy`, token USDC, no destination, spend
limits enforced), then preflight + adapter buy. -/
def polyBuyCommand (env : PolyCmdEnv) (st : DbState) (walletId : String)
    (opts : PolyBuyOpts) : CmdOut PolyResult :=
  if !env.sessionValid then ⟨.error ⟨"ERR_NEED_UNLOCK"⟩, st, []⟩
  else
    let side := jsToLower opts.outcome
    if !(side == "yes" || side == "no") then ⟨.error ⟨"ERR_INVALID_PARAMS"⟩, st, []⟩
    else if decide (opts.size ≤ 0) then ⟨.error ⟨"ERR_INVALID_PARAMS"⟩, st, []⟩
    else if decide (opts.price ≤ 0) then ⟨.error ⟨"ERR_INVALID_PARAMS"⟩, st, []⟩
    else
      let amount : ℚ := (round (opts.size * opts.price * 1000000) : ℚ) / 1000000
      if opts.dryRun then
        let stats := dailySpendStats st.operations walletId "USDC" env.atomic.nowIso
        match evaluatePolicy { policy := env.atomic.policy, token := "USDC",
                               amount := amount, toAddress := none, stats := stats,
                               skipSpendLimits := false } with
        | .denied code => ⟨.error ⟨code⟩, st, [.policyEval]⟩
        | .allowed =>
          ⟨.ok { tx_id := "", provider_order_id := none, provider_status := "dry_run",
                 orderJson := emptyJsonObject, dry_run := true }, st, [.policyEval]⟩
      else
        polyFinish env walletId "predict.buy" opts.idempotencyKey true
          (orchestrationAtomic env.atomic st walletId "predict_buy" "predict_buy"
            "USDC" amount none false opts.idempotencyKey)

/-- Options of `polySellCommand` after numeric parsing. -/
structure PolySellOpts where
  position : String
  size : ℚ
  idempotencyKey : String
  dryRun : Bool := false
deriving Repr, DecidableEq

/-- `polySellCommand` (commands/poly.ts): session gate, size validation,
dry-run, atomic decide phase (scope `predict_sell`, token USDC,
`skipSpendLimits: true`), then the adapter sell (no preflight). -/
def polySellCommand (env : PolyCmdEnv) (st : DbState) (walletId : String)
    (opts : PolySellOpts) : CmdOut PolyResult :=
  if !env.sessionValid then ⟨.error ⟨"ERR_NEED_UNLOCK"⟩, st, []⟩
  else if decide (opts.size ≤ 0) then ⟨.error ⟨"ERR_INVALID_PARAMS"⟩, st, []⟩
  else if opts.dryRun then
    let stats := dailySpendStats st.operations walletId "USDC" env.atomic.nowIso
    match evaluatePolicy { policy := env.atomic.policy, token := "USDC",
                           amount := opts.size, toAddress := none, stats := stats,
                           skipSpendLimits := true } with
    | .denied code => ⟨.error ⟨code⟩, st, [.policyEval]⟩
    | .allowed =>
      ⟨.ok { tx_id := "", provider_order_id := none, provider_status := "dry_run",
             orderJson := emptyJsonObject, dry_run := true }, st, [.policyEval]⟩
  else
    polyFinish env walletId "predict.sell" opts.idempotencyKey false
      (orchestrationAtomic env.atomic st walletId "predict_sell" "predict_sell"
        "USDC" opts.size none true opts.idempotencyKey)

/-! ## Spec-side views of the policy engine -/

/-- Guarded micro-unit comparison `x > lim` (no limit, no failure). -/
def microGt (x : ℤ) (lim : Option ℤ) : Bool :=
  match lim with
  | none => false
  | some l => decide (x > l)

/-- The integer micro-unit data a policy decision may depend on, next to
the non-monetary checks. -/
structure MicroView where
  tokenFails : Bool
  addrFails : Bool
  skip : Bool
  amountMicro : ℤ
  perTxMicro : Option ℤ
  dailySumMicro : ℤ
  dailyLimitMicro : Option ℤ
  approvalMicro : Option ℤ
  countFails : Bool

/-- Decision procedure over the micro-unit view only: every monetary
comparison is an integer comparison of micro-units. -/
def evalMicro (v : MicroView) : PolicyDecision :=
  if v.tokenFails then .denied "ERR_TOKEN_NOT_ALLOWED"
  else if v.addrFails then .denied "ERR_ADDRESS_NOT_ALLOWED"
  else if !v.skip && microGt v.amountMicro v.perTxMicro then
    .denied "ERR_PER_TX_LIMIT_EXCEEDED"
  else if !v.skip && microGt v.dailySumMicro v.dailyLimitMicro then
    .denied "ERR_DAILY_LIMIT_EXCEEDED"
  else if !v.skip && microGt v.amountMicro v.approvalMicro then
    .denied "ERR_APPROVAL_THRESHOLD_EXCEEDED"
  else if v.countFails then .denied "ERR_TX_COUNT_LIMIT_EXCEEDED"
  else .allowed

/-- Micro-unit view of an `evaluatePolicy` input: every monetary quantity
rounded to micro-units, and the two JS sums rounded exactly where the
source rounds them. -/
def microView (input : EvalInput) : MicroView :=
  { tokenFails := tokenCheckFails input, addrFails := addrCheckFails input,
    skip := input.skipSpendLimits,
    amountMicro := toMicroUnits input.amount,
    perTxMicro := input.policy.per_tx_limit.map toMicroUnits,
    dailySumMicro := toMicroUnits (input.stats.todaySpent + input.amount),
    dailyLimitMicro := input.policy.daily_limit.map toMicroUnits,
    approvalMicro := input.policy.require_approval_above.map toMicroUnits,
    countFails := txCountCheckFails input }

/-- Modelled from the spec (sell exemption): with `skipSpendLimits` only
the token allowlist, destination allowlist and transaction-count checks
remain, in that order. -/
def evaluatePolicySkipSpec (input : EvalInput) : PolicyDecision :=
  firstFailure
    [(tokenCheckFails input, "ERR_TOKEN_NOT_ALLOWED"),
     (addrCheckFails input, "ERR_ADDRESS_NOT_ALLOWED"),
     (txCountCheckFails input, "ERR_TX_COUNT_LIMIT_EXCEEDED")]

/-- Adding one micro-unit to an amount adds exactly one to its rounded
micro-unit value. -/
theorem toMicroUnits_succ (q : ℚ) :
    toMicroUnits (q + 1/1000000) = toMicroUnits q + 1 := by
  unfold toMicroUnits
  have h : (q + 1/1000000) * 1000000 = q * 1000000 + ((1:ℤ) : ℚ) := by push_cast; ring
  rw [h, round_add_int]

/-- C3: evaluatePolicy applies its checks in the fixed order token
allowlist, destination allowlist (only when a destination is given),
per-tx ceiling, daily ceiling, approval threshold, transaction-count
ceiling, returning the denial code of the first failing check; an empty
`allowed_tokens` list never produces a token denial and an empty
`allowed_addresses` list never produces an address denial. -/
theorem claim_C3 :
    (∀ input : EvalInput, evaluatePolicy input = evaluatePolicySpec input) ∧
    (∀ input : EvalInput, input.policy.allowed_tokens = [] →
      evaluatePolicy input ≠ .denied "ERR_TOKEN_NOT_ALLOWED") ∧
    (∀ input : EvalInput, input.policy.allowed_addresses = [] →
      evaluatePolicy input ≠ .denied "ERR_ADDRESS_NOT_ALLOWED") := by
  refine ⟨fun input => rfl, fun input h => ?_, fun input h => ?_⟩
  · have ht : tokenCheckFails input = false := by
      simp [tokenCheckFails, h]
    simp only [evaluatePolicy, ht]
    split_ifs <;> simp_all
  · have ha : addrCheckFails input = false := by
      unfold addrCheckFails
      cases input.toAddress with
      | none => rfl
      | some a => simp [h]
    simp only [evaluatePolicy, ha]
    split_ifs <;> simp_all

/-- Fully permissive policy used by witness instantiations. -/
def policyOpen : PolicyConfig :=
  { daily_limit := none, per_tx_limit := none, max_tx_per_day := none,
    allowed_tokens := [], allowed_addresses := [], require_approval_above := none }

/-- Concrete input with empty allowlists. -/
def inputC3 : EvalInput :=
  { policy := policyOpen, token := "USDC", amount := 5,
    toAddress := some "0xAAAAAAAAAAAAAAAAAAAAAAAAAAAAAAAAAAAAAAAA",
    stats := { todaySpent := 0, todayTxCount := 0 } }

theorem claim_C3_witness :
    evaluatePolicy inputC3 = evaluatePolicySpec inputC3 ∧
    evaluatePolicy inputC3 ≠ .denied "ERR_TOKEN_NOT_ALLOWED" ∧
    evaluatePolicy inputC3 ≠ .denied "ERR_ADDRESS_NOT_ALLOWED" :=
  ⟨claim_C3.1 inputC3, claim_C3.2.1 inputC3 rfl, claim_C3.2.2 inputC3 rfl⟩

/-- C4: every monetary comparison of evaluatePolicy factors through
integer micro-units (`round(value * 1e6)`); an amount exactly equal to
`per_tx_limit` passes the per-tx check; one micro-unit above the limit is
denied with the per-tx code; and the decimal boundary case 0.1 against
todaySpent 0.2 with daily limit 0.3 is allowed exactly. -/
theorem claim_C4 :
    (∀ input : EvalInput, evaluatePolicy input = evalMicro (microView input)) ∧
    (∀ input : EvalInput,
      input.policy.per_tx_limit = some input.amount →
      tokenCheckFails input = false → addrCheckFails input = false →
      dailyCheckFails input = false → approvalCheckFails input = false →
      txCountCheckFails input = false →
      evaluatePolicy input = .allowed) ∧
    (∀ (input : EvalInput) (lim : ℚ),
      input.policy.per_tx_limit = some lim →
      input.amount = lim + 1/1000000 →
      input.skipSpendLimits = false →
      tokenCheckFails input = false → addrCheckFails input = false →
      evaluatePolicy input = .denied "ERR_PER_TX_LIMIT_EXCEEDED") ∧
    (evaluatePolicy
      { policy := { daily_limit := some (3/10), per_tx_limit := none,
                    max_tx_per_day := none, allowed_tokens := [],
                    allowed_addresses := [], require_approval_above := none },
        token := "USDC", amount := 1/10,
        stats := { todaySpent := 2/10, todayTxCount := 0 } } = .allowed) := by
  refine ⟨fun input => ?_, fun input hpt htok haddr hdaily happ hcnt => ?_,
          fun input lim hpt ham hskip htok haddr => ?_, ?_⟩
  · cases h1 : input.policy.per_tx_limit <;>
      cases h2 : input.policy.daily_limit <;>
      cases h3 : input.policy.require_approval_above <;>
      simp [evaluatePolicy, evalMicro, microView, microGt,
            perTxCheckFails, dailyCheckFails, approvalCheckFails, h1, h2, h3]
  · have hper : perTxCheckFails input = false := by
      simp [perTxCheckFails, hpt]
    simp [evaluatePolicy, htok, haddr, hper, hdaily, happ, hcnt]
  · have hper : perTxCheckFails input = true := by
      simp only [perTxCheckFails, hpt, ham, toMicroUnits_succ]
      simp [Int.lt_add_one_iff]
    simp [evaluatePolicy, htok, haddr, hskip, hper]
  · simp [evaluatePolicy, tokenCheckFails, addrCheckFails, perTxCheckFails,
          dailyCheckFails, approvalCheckFails, txCountCheckFails, toMicroUnits, round_eq]
    norm_num

/-- Concrete boundary input: amount equal to the per-tx limit. -/
def inputC4a : EvalInput :=
  { policy := { policyOpen with per_tx_limit := some 5 }, token := "USDC",
    amount := 5, stats := { todaySpent := 0, todayTxCount := 0 } }

/-- Concrete boundary input: one micro-unit above the per-tx limit. -/
def inputC4b : EvalInput :=
  { policy := { policyOpen with per_tx_limit := some 5 }, token := "USDC",
    amount := 5 + 1/1000000, stats := { todaySpent := 0, todayTxCount := 0 } }

theorem claim_C4_witness :
    evaluatePolicy inputC4a = evalMicro (microView inputC4a) ∧
    evaluatePolicy inputC4a = .allowed ∧
    evaluatePolicy inputC4b = .denied "ERR_PER_TX_LIMIT_EXCEEDED" :=
  ⟨claim_C4.1 inputC4a,
   claim_C4.2.1 inputC4a rfl (by decide) (by decide) (by decide) (by decide) (by decide),
   claim_C4.2.2.1 inputC4b 5 rfl rfl rfl (by decide) (by decide)⟩

/-- Concrete sell environment for the skip-limits scenarios: spend
ceilings far below the sell size, allowlists and rate limit satisfied. -/
def atomicEnvC7 : AtomicEnv :=
  { policy := { daily_limit := some 500, per_tx_limit := some 100,
                max_tx_per_day := some 5, allowed_tokens := ["USDC"],
                allowed_addresses := [], require_approval_above := some 50 },
    nowMs := 1760000000000, nowIso := "2026-10-11T09:00:00.000Z",
    freshTxId := "tx_sell1", metaJson := "m", reqJson := "q",
    auditId := "aud1", auditNow := "2026-10-11T09:00:01.000Z",
    sha256 := fun s => s, redactSecrets := fun s => s }

def sellEnvC7 : PolyCmdEnv :=
  { atomic := atomicEnvC7, sessionValid := true, preflight := none,
    decrypt := none,
    adapter := .ok { provider_order_id := some "ord1",
                     provider_status := some "filled", dataJson := "d" },
    stringifyPolyResult := fun _ => "r" }

def sellOptsC7 : PolySellOpts :=
  { position := "p1", size := 1000, idempotencyKey := "k1" }

/-- C7: with `skipSpendLimits` the per-tx, daily and approval checks are
skipped while token allowlist, destination allowlist and transaction
count still apply: the decision equals the three-check first-failure
evaluation; a sell that would fail the daily ceiling is allowed when the
remaining checks pass; an exceeded transaction count is denied; and a
concrete `polySellCommand` with size 1000 against daily limit 500
succeeds end to end. -/
theorem claim_C7 :
    (∀ input : EvalInput, input.skipSpendLimits = true →
      evaluatePolicy input = evaluatePolicySkipSpec input) ∧
    (∀ input : EvalInput, input.skipSpendLimits = true →
      dailyCheckFails input = true →
      tokenCheckFails input = false → addrCheckFails input = false →
      txCountCheckFails input = false →
      evaluatePolicy input = .allowed) ∧
    (∀ input : EvalInput, input.skipSpendLimits = true →
      tokenCheckFails input = false → addrCheckFails input = false →
      txCountCheckFails input = true →
      evaluatePolicy input = .denied "ERR_TX_COUNT_LIMIT_EXCEEDED") ∧
    ((polySellCommand sellEnvC7 ⟨[], [], []⟩ "w1" sellOptsC7).res =
      .ok { tx_id := "tx_sell1", provider_order_id := some "ord1",
            provider_status := "filled", orderJson := "d" }) := by
  refine ⟨fun input h => ?_, fun input h hd ht ha hc => ?_,
          fun input h ht ha hc => ?_, ?_⟩
  · simp [evaluatePolicy, evaluatePolicySkipSpec, firstFailure, h]
  · simp [evaluatePolicy, h, ht, ha, hc]
  · simp [evaluatePolicy, h, ht, ha, hc]
  · decide

/-- Concrete skip-limits input whose daily ceiling would fail. -/
def inputC7 : EvalInput :=
  { policy := { policyOpen with daily_limit := some 1, max_tx_per_day := some 5 },
    token := "USDC", amount := 1000,
    stats := { todaySpent := 0, todayTxCount := 0 }, skipSpendLimits := true }

/-- Concrete skip-limits input whose transaction count fails. -/
def inputC7b : EvalInput :=
  { policy := { policyOpen with max_tx_per_day := some 5 }, token := "USDC",
    amount := 1000, stats := { todaySpent := 0, todayTxCount := 5 },
    skipSpendLimits := true }

/-- The daily ceiling of `inputC7` would indeed fail (1000 over limit 1). -/
theorem inputC7_dailyFails : dailyCheckFails inputC7 = true := by
  simp [inputC7, dailyCheckFails, policyOpen, toMicroUnits, round_eq]
  norm_num

theorem claim_C7_witness :
    evaluatePolicy inputC7 = evaluatePolicySkipSpec inputC7 ∧
    evaluatePolicy inputC7 = .allowed ∧
    evaluatePolicy inputC7b = .denied "ERR_TX_COUNT_LIMIT_EXCEEDED" :=
  ⟨claim_C7.1 inputC7 rfl,
   claim_C7.2.1 inputC7 rfl inputC7_dailyFails (by decide) (by decide) (by decide),
   claim_C7.2.2.1 inputC7b rfl (by decide) (by decide) (by decide)⟩

/-! ## Audit-log hash chain invariants -/

def recomputedHash (sha256 : String → String) (row : AuditLogRow) : String :=
  sha256 (row.prev_hash ++ row.id ++ row.action ++ row.request_json ++
    row.decision ++ row.created_at)

def chainOk (sha256 : String → String) (rows : List AuditLogRow) : Prop :=
  (∀ (i : ℕ) (h : i < rows.length),
    rows[i].entry_hash = recomputedHash sha256 rows[i]) ∧
  (∀ (i : ℕ) (h : i + 1 < rows.length),
    rows[i + 1].prev_hash = rows[i].entry_hash) ∧
  (∀ _ : 0 < rows.length, rows[0].prev_hash = zeros64)

theorem chainOk_append (sha256 : String → String) (rows : List AuditLogRow)
    (row : AuditLogRow) (hok : chainOk sha256 rows)
    (hprev : row.prev_hash =
      (match rows.getLast? with | some r => r.entry_hash | none => zeros64))
    (hhash : row.entry_hash = recomputedHash sha256 row) :
    chainOk sha256 (rows ++ [row]) := by
  obtain ⟨h1, h2, h3⟩ := hok
  refine ⟨?_, ?_, ?_⟩
  · intro i h
    rcases Nat.lt_or_ge i rows.length with hi | hi
    · rw [List.getElem_append_left hi]
      exact h1 i hi
    · have hieq : i = rows.length := by
        simp only [List.length_append, List.length_singleton] at h
        omega
      rw [List.getElem_concat_length rows row i hieq]
      exact hhash
  · intro i h
    rcases Nat.lt_or_ge (i + 1) rows.length with hi | hi
    · rw [List.getElem_append_left hi, List.getElem_append_left (by omega)]
      exact h2 i hi
    · have hieq : i + 1 = rows.length := by
        simp only [List.length_append, List.length_singleton] at h
        omega
      have hilt : i < rows.length := by omega
      rw [List.getElem_concat_length rows row (i + 1) hieq,
          List.getElem_append_left hilt]
      have hlast : rows.getLast? = some rows[i] := by
        rw [List.getLast?_eq_getElem?]
        have hsub : rows.length - 1 = i := by omega
        rw [hsub]
        exact List.getElem?_eq_getElem hilt
      rw [hprev, hlast]
  · intro h
    clear h1 h2
    match rows, h3, hprev, h with
    | [], _, hprev, _ =>
      simp only [List.nil_append, List.getElem_singleton]
      rw [hprev]
      rfl
    | a :: as, h3, _, _ =>
      rw [List.getElem_append_left (by simp)]
      exact h3 (by simp)

theorem chainOk_logAudit (sha256 redact : String → String) (st : DbState)
    (inp : AuditInput) (id now : String)
    (hok : chainOk sha256 st.audit_logs) :
    chainOk sha256 (logAudit sha256 redact st inp id now).audit_logs := by
  unfold logAudit
  exact chainOk_append sha256 st.audit_logs _ hok rfl rfl

theorem chainOk_nil (sha256 : String → String) : chainOk sha256 [] := by
  refine ⟨?_, ?_, ?_⟩ <;> intro i <;> simp at i ⊢

theorem chainOk_auditChain (sha256 redact : String → String)
    (inputs : List (AuditInput × String × String)) :
    ∀ st : DbState, chainOk sha256 st.audit_logs →
      chainOk sha256 (auditChain sha256 redact st inputs).audit_logs := by
  induction inputs with
  | nil => exact fun st h => h
  | cons t ts ih =>
    intro st h
    exact ih _ (chainOk_logAudit sha256 redact st t.1 t.2.1 t.2.2 h)

def tamperAt : List AuditLogRow → ℕ → Option String → Option String →
    Option String → List AuditLogRow
  | [], _, _, _, _ => []
  | row :: rest, 0, w, r, e =>
    { row with wallet_id := w, result_json := r, error_code := e } :: rest
  | row :: rest, j + 1, w, r, e => row :: tamperAt rest j w r e

theorem tamperAt_length (rows : List AuditLogRow) (j : ℕ) (w r e : Option String) :
    (tamperAt rows j w r e).length = rows.length := by
  induction rows generalizing j with
  | nil => rfl
  | cons a as ih =>
    cases j with
    | zero => rfl
    | succ j => simpa [tamperAt] using ih j

theorem tamperAt_getElem (rows : List AuditLogRow) (j : ℕ) (w r e : Option String)
    (i : ℕ) (h : i < rows.length) (h2 : i < (tamperAt rows j w r e).length) :
    (tamperAt rows j w r e)[i] =
      if i = j then { rows[i] with wallet_id := w, result_json := r, error_code := e }
      else rows[i] := by
  induction rows generalizing i j with
  | nil => simp at h
  | cons a as ih =>
    cases j with
    | zero =>
      cases i with
      | zero => simp [tamperAt]
      | succ i => simp [tamperAt]
    | succ j =>
      cases i with
      | zero => simp [tamperAt]
      | succ i =>
        have hi : i < as.length := by simpa using h
        have hi2 : i < (tamperAt as j w r e).length := by
          rw [tamperAt_length]; exact hi
        simp only [tamperAt, List.getElem_cons_succ]
        rw [ih j i hi hi2]
        simp [Nat.succ_inj]

theorem chainOk_tamperAt (sha256 : String → String) (rows : List AuditLogRow)
    (j : ℕ) (w r e : Option String) (hok : chainOk sha256 rows) :
    chainOk sha256 (tamperAt rows j w r e) := by
  obtain ⟨h1, h2, h3⟩ := hok
  refine ⟨?_, ?_, ?_⟩
  · intro i h
    have hi : i < rows.length := by rwa [tamperAt_length] at h
    rw [tamperAt_getElem rows j w r e i hi h]
    split <;> simp [recomputedHash] <;> exact h1 i hi
  · intro i h
    have hi : i + 1 < rows.length := by rwa [tamperAt_length] at h
    rw [tamperAt_getElem rows j w r e (i + 1) hi (by rwa [tamperAt_length]),
        tamperAt_getElem rows j w r e i (by omega) (by rw [tamperAt_length]; omega)]
    split <;> split <;> simpa using h2 i hi
  · intro h
    have hi : 0 < rows.length := by rwa [tamperAt_length] at h
    rw [tamperAt_getElem rows j w r e 0 hi h]
    split <;> simpa using h3 hi

theorem logAudit_entry_hash_eq (sha256 redact : String → String) (st : DbState)
    (inp1 inp2 : AuditInput) (id now : String)
    (ha : inp1.action = inp2.action) (hr : inp1.requestJson = inp2.requestJson)
    (hd : inp1.decision = inp2.decision) :
    ((logAudit sha256 redact st inp1 id now).audit_logs.getLast?).map
        (fun row => row.entry_hash) =
      ((logAudit sha256 redact st inp2 id now).audit_logs.getLast?).map
        (fun row => row.entry_hash) := by
  unfold logAudit
  simp only [List.getLast?_concat, Option.map_some']
  rw [ha, hr, hd]

/-- C2: every audit log built by a sequence of appends satisfies the
chain invariants: each stored `entry_hash` is the hash of
`prev_hash ++ id ++ action ++ request_json ++ decision ++ created_at`
recomputed from the stored fields, each later `prev_hash` equals the
previous `entry_hash`, and the first `prev_hash` is the 64-zero-character
sentinel. -/
theorem claim_C2 (sha256 redact : String → String)
    (inputs : List (AuditInput × String × String)) (st : DbState)
    (h : st.audit_logs = []) :
    chainOk sha256 (auditChain sha256 redact st inputs).audit_logs ∧
    zeros64.length = 64 ∧ (zeros64.data.all fun c => c == '0') = true := by
  refine ⟨?_, by decide, by decide⟩
  apply chainOk_auditChain
  rw [h]
  exact chainOk_nil sha256

/-- The identity function, standing in for a concrete hash/redaction pair
in witness instantiations (the chain theorems hold for every such pair). -/
def idStr : String → String := fun s => s

def auditInpA : AuditInput :=
  { wallet_id := some "w1", action := "tx.send", requestJson := "req1",
    decision := "sent", resultJson := some "res1", error_code := none }

def auditInpB : AuditInput :=
  { wallet_id := none, action := "unlock", requestJson := "req2",
    decision := "denied", resultJson := none,
    error_code := some "ERR_NEED_UNLOCK" }

theorem claim_C2_witness :
    chainOk idStr (auditChain idStr idStr ⟨[], [], []⟩
        [(auditInpA, "id1", "t1"), (auditInpB, "id2", "t2")]).audit_logs ∧
    zeros64.length = 64 ∧ (zeros64.data.all fun c => c == '0') = true :=
  claim_C2 idStr idStr [(auditInpA, "id1", "t1"), (auditInpB, "id2", "t2")]
    ⟨[], [], []⟩ rfl

/-- C10: the stored `entry_hash` depends only on `prev_hash`, `id`,
`action`, the redacted/truncated request JSON, `decision` and
`created_at` — two `logAudit` inputs differing only in result,
error code or wallet id produce the same `entry_hash` — and editing the
stored `result_json`, `error_code` or `wallet_id` of any entry leaves the
recomputed hashes and the `prev_hash` chain valid. -/
theorem claim_C10 :
    (∀ (sha256 redact : String → String) (st : DbState)
       (inp1 inp2 : AuditInput) (id now : String),
       inp1.action = inp2.action → inp1.requestJson = inp2.requestJson →
       inp1.decision = inp2.decision →
       ((logAudit sha256 redact st inp1 id now).audit_logs.getLast?).map
           (fun row => row.entry_hash) =
         ((logAudit sha256 redact st inp2 id now).audit_logs.getLast?).map
           (fun row => row.entry_hash)) ∧
    (∀ (sha256 : String → String) (rows : List AuditLogRow) (j : ℕ)
       (w r e : Option String),
       chainOk sha256 rows → chainOk sha256 (tamperAt rows j w r e)) :=
  ⟨logAudit_entry_hash_eq, chainOk_tamperAt⟩

/-- Input agreeing with `auditInpA` on action, request and decision but
differing in wallet id, result and error code. -/
def auditInpA2 : AuditInput :=
  { wallet_id := some "w2", action := "tx.send", requestJson := "req1",
    decision := "sent", resultJson := none, error_code := some "E" }

theorem claim_C10_witness :
    (((logAudit idStr idStr ⟨[], [], []⟩ auditInpA "id1" "t1").audit_logs.getLast?).map
        (fun row => row.entry_hash) =
      ((logAudit idStr idStr ⟨[], [], []⟩ auditInpA2 "id1" "t1").audit_logs.getLast?).map
        (fun row => row.entry_hash)) ∧
    chainOk idStr
      (tamperAt (logAudit idStr idStr ⟨[], [], []⟩ auditInpA "id1" "t1").audit_logs
        0 (some "w9") none (some "E9")) :=
  ⟨claim_C10.1 idStr idStr ⟨[], [], []⟩ auditInpA auditInpA2 "id1" "t1" rfl rfl rfl,
   claim_C10.2 idStr _ 0 (some "w9") none (some "E9")
     (chainOk_logAudit idStr idStr ⟨[], [], []⟩ auditInpA "id1" "t1"
       (chainOk_nil idStr))⟩

/-- C6: a reservation conflicting with an existing row for the same key is
rejected as invalid input when the stored scope differs; a same-scope
`reserved` row older than 48 hours is deleted and the key re-reserved
with a fresh timestamp; every other same-scope conflict succeeds as a
no-op leaving the store unchanged. -/
theorem claim_C6 :
    (∀ (st : DbState) (key scope : String) (nowMs : ℤ) (row : IdempotencyKeyRow),
      isValidIdempotencyKey key = true →
      findKeyRow st.idempotency_keys key = some row →
      row.scope ≠ scope →
      reserveIdempotencyKey st key scope nowMs = .error ⟨"ERR_INVALID_PARAMS"⟩) ∧
    (∀ (st : DbState) (key scope : String) (nowMs : ℤ) (row : IdempotencyKeyRow),
      isValidIdempotencyKey key = true →
      findKeyRow st.idempotency_keys key = some row →
      row.scope = scope →
      row.status = "reserved" →
      nowMs - row.created_at > staleReclaimMs →
      reserveIdempotencyKey st key scope nowMs =
        .ok { st with idempotency_keys :=
                (st.idempotency_keys.filter (fun r => r.key != key)) ++
                  [⟨key, scope, none, "reserved", nowMs⟩] }) ∧
    (∀ (st : DbState) (key scope : String) (nowMs : ℤ) (row : IdempotencyKeyRow),
      isValidIdempotencyKey key = true →
      findKeyRow st.idempotency_keys key = some row →
      row.scope = scope →
      (row.status ≠ "reserved" ∨ nowMs - row.created_at ≤ staleReclaimMs) →
      reserveIdempotencyKey st key scope nowMs = .ok st) := by
  refine ⟨fun st key scope nowMs row hv hf hs => ?_,
          fun st key scope nowMs row hv hf hs hres hage => ?_,
          fun st key scope nowMs row hv hf hs hcase => ?_⟩
  · simp [reserveIdempotencyKey, hv, hf, hs]
  · simp [reserveIdempotencyKey, hv, hf, hs, hres, hage]
  · rcases hcase with hco | hco
    · simp [reserveIdempotencyKey, hv, hf, hs, hco]
    · have hno : ¬(staleReclaimMs < nowMs - row.created_at) := by omega
      simp [reserveIdempotencyKey, hv, hf, hs, hno]

/-- Store with one completed key row for the conflict scenarios. -/
def stC6a : DbState :=
  ⟨[], [⟨"k1", "tx_send", some "tx1", "completed", 1000⟩], []⟩

/-- Store with one stale reserved key row (48h + 1ms old at the witness
clock reading). -/
def stC6b : DbState :=
  ⟨[], [⟨"k1", "tx_send", none, "reserved", 0⟩], []⟩

theorem claim_C6_witness :
    reserveIdempotencyKey stC6a "k1" "predict_buy" 2000 =
      .error ⟨"ERR_INVALID_PARAMS"⟩ ∧
    reserveIdempotencyKey stC6b "k1" "tx_send" 172800001 =
      .ok { stC6b with idempotency_keys :=
              (stC6b.idempotency_keys.filter (fun r => r.key != "k1")) ++
                [⟨"k1", "tx_send", none, "reserved", 172800001⟩] } ∧
    reserveIdempotencyKey stC6b "k1" "tx_send" 172800000 = .ok stC6b :=
  ⟨claim_C6.1 stC6a "k1" "predict_buy" 2000 _ (by decide) rfl (by decide),
   claim_C6.2.1 stC6b "k1" "tx_send" 172800001 _ (by decide) rfl rfl rfl (by decide),
   claim_C6.2.2 stC6b "k1" "tx_send" 172800000 _ (by decide) rfl rfl
     (Or.inr (by decide))⟩

/-! ## Spend accounting: the USDC.e token-normalization mismatch -/

theorem toUpper_ne_e (c : Char) : Char.toUpper c ≠ 'e' := by
  intro h
  simp only [Char.toUpper] at h
  split at h
  · rename_i hin
    obtain ⟨h1, h2⟩ := hin
    have h1n : 97 ≤ c.toNat := h1
    have h2n : c.toNat ≤ 122 := h2
    set n := c.toNat with hn
    interval_cases n <;> exact absurd h (by decide)
  · rename_i hout
    subst h
    exact hout (by decide)

theorem jsToUpper_ne_usdce (s : String) : jsToUpper s ≠ "USDC.e" := by
  intro h
  have hmem : 'e' ∈ (jsToUpper s).data := by rw [h]; decide
  obtain ⟨c, _, hc⟩ := List.mem_map.mp hmem
  exact toUpper_ne_e c hc

def dailySpendStatsClaim (ops : List OperationRow) (walletId token nowIso : String) :
    SpendStats :=
  let dayStart : String := ⟨nowIso.data.take 10⟩ ++ "T00:00:00.000Z"
  { todaySpent :=
      ((ops.filter (fun op => op.wallet_id == walletId && op.token == some token &&
          strGe op.created_at dayStart && activeStatuses.contains op.status)).map
        (fun op => op.amount.getD 0)).sum,
    todayTxCount :=
      ((ops.filter (fun op => op.wallet_id == walletId &&
          strGe op.created_at dayStart && activeStatuses.contains op.status)).length : ℤ) }

def dailySpendStatsAmended (ops : List OperationRow) (walletId token nowIso : String) :
    SpendStats :=
  let dayStart : String := ⟨nowIso.data.take 10⟩ ++ "T00:00:00.000Z"
  { todaySpent :=
      ((ops.filter (fun op => op.wallet_id == walletId &&
          op.token == some (jsToUpper token) &&
          strGe op.created_at dayStart && activeStatuses.contains op.status)).map
        (fun op => op.amount.getD 0)).sum,
    todayTxCount :=
      ((ops.filter (fun op => op.wallet_id == walletId &&
          strGe op.created_at dayStart && activeStatuses.contains op.status)).length : ℤ) }

def opUSDCe : OperationRow :=
  { tx_id := "t1", wallet_id := "w1", kind := "send", status := "pending",
    token := some "USDC.e", amount := some 5, to_address := some "0xbb",
    tx_hash := none, provider_order_id := none, idempotency_key := some "k1",
    meta_json := some "m", created_at := "2026-10-11T08:00:00.000Z",
    updated_at := "2026-10-11T08:00:00.000Z" }

def nowC5 : String := "2026-10-11T09:00:00.000Z"

/-- C5 counterexample: one operation stored with token USDC.e (as the
send orchestration stores bridged USDC) is invisible to the spend sum of
`dailySpendStats` queried with the very same token string, because the
query compares against the uppercased argument USDC.E; the claim reading
(sum over operations for that token) yields 5, the code yields 0. -/
theorem claim_C5_counterexample :
    dailySpendStats [opUSDCe] "w1" "USDC.e" nowC5 ≠
      dailySpendStatsClaim [opUSDCe] "w1" "USDC.e" nowC5 := by
  intro h
  have h3 : (dailySpendStats [opUSDCe] "w1" "USDC.e" nowC5).todaySpent =
      (dailySpendStatsClaim [opUSDCe] "w1" "USDC.e" nowC5).todaySpent :=
    congrArg SpendStats.todaySpent h
  have h1 : (dailySpendStats [opUSDCe] "w1" "USDC.e" nowC5).todaySpent = 0 := rfl
  have h2 : (dailySpendStatsClaim [opUSDCe] "w1" "USDC.e" nowC5).todaySpent = 5 + 0 := rfl
  rw [h1, h2] at h3
  norm_num at h3

/-- C5 (amended): `dailySpendStats` returns todaySpent equal to the sum
of amounts over the wallet operations whose stored token equals the
UPPERCASE form of the token argument, with `created_at` at or after the
current UTC midnight and status in the active set, and todayTxCount equal
to the count of the wallet operations in the same window across all
tokens. -/
theorem claim_C5 :
    ∀ (ops : List OperationRow) (walletId token nowIso : String),
      dailySpendStats ops walletId token nowIso =
        dailySpendStatsAmended ops walletId token nowIso := by
  intro ops w tok now
  unfold dailySpendStats dailySpendStatsAmended
  have hfil : ∀ op : OperationRow,
      (inTodayWindow w (⟨now.data.take 10⟩ ++ "T00:00:00.000Z") op &&
        op.token == some (jsToUpper tok)) =
      (op.wallet_id == w && op.token == some (jsToUpper tok) &&
        strGe op.created_at (⟨now.data.take 10⟩ ++ "T00:00:00.000Z") &&
        activeStatuses.contains op.status) := by
    intro op
    unfold inTodayWindow
    cases op.wallet_id == w <;> cases op.token == some (jsToUpper tok) <;>
      cases strGe op.created_at (⟨now.data.take 10⟩ ++ "T00:00:00.000Z") <;>
      cases activeStatuses.contains op.status <;> rfl
  simp only [SpendStats.mk.injEq]
  constructor
  · congr 2
    exact List.filter_congr (fun op _ => hfil op)
  · rfl

def atomicEnvC9 : AtomicEnv :=
  { policy := policyOpen, nowMs := 1760000000000,
    nowIso := "2026-10-11T09:00:00.000Z", freshTxId := "tx1", metaJson := "m",
    reqJson := "q", auditId := "a1", auditNow := "2026-10-11T09:01:30.000Z",
    sha256 := idStr, redactSecrets := idStr }

def sendEnvC9 : SendCmdEnv :=
  { atomic := atomicEnvC9, sessionValid := true, addrValid := true,
    exec := { verifyChain := none, preflight := none, execPhase := .ok "0xh1",
              receipt := some (some true),
              nowBroadcast := "2026-10-11T09:01:00.000Z",
              nowReceipt := "2026-10-11T09:01:20.000Z",
              nowFail := "2026-10-11T09:01:20.000Z" },
    stringifySendResult := fun _ => "r" }

def sendOptsC9 : TxSendOpts :=
  { toAddr := "0xaa", token := "usdc.e", amount := 5, idempotencyKey := "k1" }

/-- C9: the spend query compares the stored token byte-wise against the
uppercase form of its argument, so operations recorded with token USDC.e
never contribute to todaySpent of any `dailySpendStats` call (removing
them changes no spend sum, the count is token-independent, and the
concrete USDC.e row yields spend 0 but count 1), while the send
orchestration does store bridged-USDC operations with token USDC.e. -/
theorem claim_C9 :
    (∀ (ops : List OperationRow) (walletId token nowIso : String),
      (dailySpendStats ops walletId token nowIso).todaySpent =
        (dailySpendStats (ops.filter (fun op => op.token != some "USDC.e"))
          walletId token nowIso).todaySpent) ∧
    (∀ (ops : List OperationRow) (walletId tok1 tok2 nowIso : String),
      (dailySpendStats ops walletId tok1 nowIso).todayTxCount =
        (dailySpendStats ops walletId tok2 nowIso).todayTxCount) ∧
    ((dailySpendStats [opUSDCe] "w1" "USDC.e" nowC5).todaySpent = 0 ∧
     (dailySpendStats [opUSDCe] "w1" "USDC.e" nowC5).todayTxCount = 1) ∧
    ((txSendCommand sendEnvC9 ⟨[], [], []⟩ "w1" sendOptsC9).db.operations.map
        (fun op => op.token) = [some "USDC.e"]) := by
  refine ⟨fun ops w tok now => ?_, fun ops w t1 t2 now => rfl, ⟨rfl, rfl⟩, by decide⟩
  unfold dailySpendStats
  simp only
  rw [List.filter_filter]
  congr 2
  apply List.filter_congr
  intro op _
  cases htok : op.token == some (jsToUpper tok)
  · simp [htok, Bool.and_false]
  · have heq : op.token = some (jsToUpper tok) := by
      exact eq_of_beq htok
    have hne : op.token ≠ some "USDC.e" := by
      rw [heq]
      intro hcon
      exact jsToUpper_ne_usdce tok (Option.some_injective _ hcon)
    simp [htok, hne]

/-! ## Orchestration replay and retry (C1)

The replay short-circuit and the delete-and-retry path of the shared
atomic decide phase, lifted to `txSendCommand` and `polySellCommand`. The
scope-consistency and key-uniqueness hypotheses reflect the UNIQUE
constraints of the store and the fact that an operation bound to a key
was created by the command that reserved that key; a cross-scope key is
rejected as invalid input instead (claim C6). -/

theorem findKeyRow_props {rows : List IdempotencyKeyRow} {key : String}
    {row : IdempotencyKeyRow} (h : findKeyRow rows key = some row) :
    row ∈ rows ∧ row.key = key := by
  unfold findKeyRow at h
  refine ⟨List.mem_of_find?_eq_some h, ?_⟩
  have := List.find?_some h
  simpa using this

theorem orchestrationAtomic_replay
    (env : AtomicEnv) (st : DbState)
    (walletId scope kind token : String) (amount : ℚ) (toAddress : Option String)
    (skipLimits : Bool) (key : String) (ex : OperationRow)
    (hvalid : isValidIdempotencyKey key = true)
    (hfind : getOperationByIdempotencyKey st.operations key = some ex)
    (hp : ex.status ≠ "pending") (hf : ex.status ≠ "failed")
    (hscope : ∀ row ∈ st.idempotency_keys, row.key = key → row.scope = scope) :
    ∃ keys2 : List IdempotencyKeyRow,
      orchestrationAtomic env st walletId scope kind token amount toAddress
          skipLimits key =
        ⟨.ok (.replay ex), ⟨st.operations, keys2, st.audit_logs⟩, []⟩ := by
  unfold orchestrationAtomic reserveIdempotencyKey
  cases hfk : findKeyRow st.idempotency_keys key with
  | none =>
    refine ⟨st.idempotency_keys ++ [⟨key, scope, none, "reserved", env.nowMs⟩], ?_⟩
    simp only [hvalid, Bool.not_true, Bool.false_eq_true, if_false, hfk]
    simp only [hfind, hp, hf]
    simp [hp, hf]
  | some row =>
    obtain ⟨hmem, hkey⟩ := findKeyRow_props hfk
    have hsc : row.scope = scope := hscope row hmem hkey
    by_cases hrecl : row.status == "reserved" && decide (env.nowMs - row.created_at > staleReclaimMs)
    · refine ⟨(st.idempotency_keys.filter (fun r => r.key != key)) ++
        [⟨key, scope, none, "reserved", env.nowMs⟩], ?_⟩
      simp only [hvalid, Bool.not_true, Bool.false_eq_true, if_false, hfk, hsc]
      simp [hrecl, hfind, hp, hf]
    · refine ⟨st.idempotency_keys, ?_⟩
      simp only [hvalid, Bool.not_true, Bool.false_eq_true, if_false, hfk, hsc]
      simp [hrecl, hfind, hp, hf]

def cleanAfterRetry (st : DbState) (key txId : String) : DbState :=
  { st with operations := st.operations.filter (fun op => op.tx_id != txId),
            idempotency_keys := st.idempotency_keys.filter (fun r => r.key != key) }

theorem orchestrationAtomic_retry
    (env : AtomicEnv) (st : DbState)
    (walletId scope kind token : String) (amount : ℚ) (toAddress : Option String)
    (skipLimits : Bool) (key : String) (ex : OperationRow)
    (hvalid : isValidIdempotencyKey key = true)
    (hfind : getOperationByIdempotencyKey st.operations key = some ex)
    (hstatus : ex.status = "pending" ∨ ex.status = "failed")
    (hscope : ∀ row ∈ st.idempotency_keys, row.key = key → row.scope = scope)
    (huniq : ∀ op ∈ st.operations, op.idempotency_key = some key →
      op.tx_id = ex.tx_id) :
    orchestrationAtomic env st walletId scope kind token amount toAddress
        skipLimits key =
      atomicTail env st
        ⟨st.operations.filter (fun op => op.tx_id != ex.tx_id),
         (st.idempotency_keys.filter (fun r => r.key != key)) ++
           [⟨key, scope, none, "reserved", env.nowMs⟩],
         st.audit_logs⟩
        walletId kind token amount toAddress skipLimits key ∧
    orchestrationAtomic env (cleanAfterRetry st key ex.tx_id) walletId scope kind
        token amount toAddress skipLimits key =
      atomicTail env (cleanAfterRetry st key ex.tx_id)
        ⟨st.operations.filter (fun op => op.tx_id != ex.tx_id),
         (st.idempotency_keys.filter (fun r => r.key != key)) ++
           [⟨key, scope, none, "reserved", env.nowMs⟩],
         st.audit_logs⟩
        walletId kind token amount toAddress skipLimits key := by
  have hnofind : ∀ rows : List IdempotencyKeyRow,
      findKeyRow (rows.filter (fun r => r.key != key)) key = none := by
    intro rows
    unfold findKeyRow
    rw [List.find?_eq_none]
    intro r hr
    have := (List.mem_filter.mp hr).2
    simpa using this
  have hstatus2 : ¬(ex.status != "failed" && ex.status != "pending") = true := by
    rcases hstatus with h | h <;> simp [h]
  constructor
  · unfold orchestrationAtomic
    -- first reserve on st
    unfold reserveIdempotencyKey
    cases hfk : findKeyRow st.idempotency_keys key with
    | none =>
      have hfilter_self : st.idempotency_keys.filter (fun r => r.key != key) =
          st.idempotency_keys := by
        rw [List.filter_eq_self]
        intro r hr
        unfold findKeyRow at hfk
        rw [List.find?_eq_none] at hfk
        have := hfk r hr
        simpa using this
      simp only [hvalid, Bool.not_true, Bool.false_eq_true, if_false]
      -- ops unchanged by reserve: getOperation finds ex
      simp only [hfind, hstatus2, if_false]
      -- delete ops, delete keys, re-reserve
      have hnof2 : findKeyRow
          ((st.idempotency_keys ++
            [(⟨key, scope, none, "reserved", env.nowMs⟩ : IdempotencyKeyRow)]).filter
            (fun r => r.key != key)) key = none := hnofind _
      simp only [hnof2]
      -- filtered append: (keys ++ [fresh]).filter = keys.filter
      have hfa : (st.idempotency_keys ++
          [(⟨key, scope, none, "reserved", env.nowMs⟩ : IdempotencyKeyRow)]).filter
            (fun r => r.key != key) = st.idempotency_keys.filter (fun r => r.key != key) := by
        rw [List.filter_append]
        simp
      simp [hfa, hfilter_self]
    | some row =>
      obtain ⟨hmem, hkey⟩ := findKeyRow_props hfk
      have hsc : row.scope = scope := hscope row hmem hkey
      have hnof2 : findKeyRow
          (st.idempotency_keys.filter (fun r => r.key != key)) key = none := hnofind _
      by_cases hrecl : row.status == "reserved" &&
          decide (env.nowMs - row.created_at > staleReclaimMs)
      · simp only [hvalid, Bool.not_true, Bool.false_eq_true, if_false, hfk, hsc,
          bne_self_eq_false, Bool.false_eq_true, hrecl]
        have hfa : ((st.idempotency_keys.filter (fun r => r.key != key)) ++
            [(⟨key, scope, none, "reserved", env.nowMs⟩ : IdempotencyKeyRow)]).filter
              (fun r => r.key != key) = st.idempotency_keys.filter (fun r => r.key != key) := by
          rw [List.filter_append, List.filter_filter]
          simp [Bool.and_self]
        simp [hfind, hstatus2, hfa, hnofind]
      · simp only [hvalid, Bool.not_true, Bool.false_eq_true, if_false, hfk, hsc,
          bne_self_eq_false, Bool.false_eq_true, hrecl]
        simp [hfind, hstatus2, hnof2]
  · unfold orchestrationAtomic reserveIdempotencyKey
    have hnof : findKeyRow (cleanAfterRetry st key ex.tx_id).idempotency_keys key =
        none := hnofind _
    have hgetop : getOperationByIdempotencyKey
        ((cleanAfterRetry st key ex.tx_id).operations) key = none := by
      unfold getOperationByIdempotencyKey cleanAfterRetry
      rw [List.find?_eq_none]
      intro op hop
      obtain ⟨hopmem, hoptx⟩ := List.mem_filter.mp hop
      intro hbeq
      have hkeyeq : op.idempotency_key = some key := by simpa using hbeq
      have := huniq op hopmem hkeyeq
      simp [this] at hoptx
    simp only [hvalid, Bool.not_true, Bool.false_eq_true, if_false, hnof, hgetop]
    rfl

theorem atomicTail_cases (env : AtomicEnv) (st0a st0b st4 : DbState)
    (walletId kind token : String) (amount : ℚ) (toAddress : Option String)
    (skipLimits : Bool) (key : String) :
    (atomicTail env st0a st4 walletId kind token amount toAddress skipLimits key).res =
      (atomicTail env st0b st4 walletId kind token amount toAddress skipLimits key).res ∧
    (atomicTail env st0a st4 walletId kind token amount toAddress skipLimits key).events =
      (atomicTail env st0b st4 walletId kind token amount toAddress skipLimits key).events ∧
    Event.policyEval ∈
      (atomicTail env st0a st4 walletId kind token amount toAddress skipLimits key).events ∧
    (∀ r, (atomicTail env st0a st4 walletId kind token amount toAddress skipLimits key).res ≠
      .ok (.replay r)) ∧
    (∀ txId,
      (atomicTail env st0a st4 walletId kind token amount toAddress skipLimits key).res =
        .ok (.created txId) →
      (atomicTail env st0a st4 walletId kind token amount toAddress skipLimits key).db =
        (atomicTail env st0b st4 walletId kind token amount toAddress skipLimits key).db) := by
  unfold atomicTail
  simp only []
  split <;> simp

theorem txSendFinish_congr (env : SendCmdEnv) (walletId : String)
    (opts : TxSendOpts) (token : String) (a b : CmdOut AtomicRes)
    (hres : a.res = b.res) (hev : a.events = b.events)
    (hnorep : ∀ r, a.res ≠ .ok (.replay r))
    (hdb : ∀ txId, a.res = .ok (.created txId) → a.db = b.db) :
    (txSendFinish env walletId opts token a).res =
      (txSendFinish env walletId opts token b).res ∧
    (txSendFinish env walletId opts token a).events =
      (txSendFinish env walletId opts token b).events ∧
    (∀ r, (txSendFinish env walletId opts token a).res = .ok r →
      (txSendFinish env walletId opts token a).db =
        (txSendFinish env walletId opts token b).db) := by
  obtain ⟨ares, adb, aev⟩ := a
  obtain ⟨bres, bdb, bev⟩ := b
  simp only at hres hev hnorep hdb
  subst hres
  subst hev
  cases ares with
  | error e => simp [txSendFinish]
  | ok v =>
    cases v with
    | replay r => exact absurd rfl (hnorep r)
    | created txId =>
      have : adb = bdb := hdb txId rfl
      subst this
      simp [txSendFinish]

theorem polyFinish_congr (env : PolyCmdEnv) (walletId action key : String)
    (withPreflight : Bool) (a b : CmdOut AtomicRes)
    (hres : a.res = b.res) (hev : a.events = b.events)
    (hnorep : ∀ r, a.res ≠ .ok (.replay r))
    (hdb : ∀ txId, a.res = .ok (.created txId) → a.db = b.db) :
    (polyFinish env walletId action key withPreflight a).res =
      (polyFinish env walletId action key withPreflight b).res ∧
    (polyFinish env walletId action key withPreflight a).events =
      (polyFinish env walletId action key withPreflight b).events ∧
    (∀ r, (polyFinish env walletId action key withPreflight a).res = .ok r →
      (polyFinish env walletId action key withPreflight a).db =
        (polyFinish env walletId action key withPreflight b).db) := by
  obtain ⟨ares, adb, aev⟩ := a
  obtain ⟨bres, bdb, bev⟩ := b
  simp only at hres hev hnorep hdb
  subst hres
  subst hev
  cases ares with
  | error e => simp [polyFinish]
  | ok v =>
    cases v with
    | replay r => exact absurd rfl (hnorep r)
    | created txId =>
      have : adb = bdb := hdb txId rfl
      subst this
      simp [polyFinish]

theorem txSendCommand_eq_finish (env : SendCmdEnv) (st : DbState)
    (walletId : String) (opts : TxSendOpts)
    (hsession : env.sessionValid = true)
    (htok : txSendTokenAllowed opts = true)
    (haddr : env.addrValid = true)
    (hamt : ¬(opts.amount ≤ 0))
    (hdry : opts.dryRun = false) :
    txSendCommand env st walletId opts =
      txSendFinish env walletId opts (txSendNormalizedToken opts)
        (orchestrationAtomic env.atomic st walletId "tx_send" "send"
          (txSendNormalizedToken opts) opts.amount (some opts.toAddr) false
          opts.idempotencyKey) := by
  unfold txSendCommand
  simp [hsession, htok, haddr, hamt, hdry]

theorem polySellCommand_eq_finish (env : PolyCmdEnv) (st : DbState)
    (walletId : String) (opts : PolySellOpts)
    (hsession : env.sessionValid = true)
    (hamt : ¬(opts.size ≤ 0))
    (hdry : opts.dryRun = false) :
    polySellCommand env st walletId opts =
      polyFinish env walletId "predict.sell" opts.idempotencyKey false
        (orchestrationAtomic env.atomic st walletId "predict_sell" "predict_sell"
          "USDC" opts.size none true opts.idempotencyKey) := by
  unfold polySellCommand
  simp [hsession, hamt, hdry]

theorem txSendFinish_policyEval (env : SendCmdEnv) (walletId : String)
    (opts : TxSendOpts) (token : String) (a : CmdOut AtomicRes)
    (h : Event.policyEval ∈ a.events) :
    Event.policyEval ∈ (txSendFinish env walletId opts token a).events := by
  obtain ⟨ares, adb, aev⟩ := a
  simp only at h
  cases ares with
  | error e => simpa [txSendFinish] using h
  | ok v =>
    cases v with
    | replay r => simpa [txSendFinish] using h
    | created txId =>
      simp only [txSendFinish]
      cases hx : executeSend env.exec adb token opts.amount opts.toAddr
        opts.idempotencyKey txId with
      | mk r db2 =>
        cases r <;> simp [List.mem_append, h]

theorem polyFinish_policyEval (env : PolyCmdEnv) (walletId action key : String)
    (withPreflight : Bool) (a : CmdOut AtomicRes)
    (h : Event.policyEval ∈ a.events) :
    Event.policyEval ∈ (polyFinish env walletId action key withPreflight a).events := by
  obtain ⟨ares, adb, aev⟩ := a
  simp only at h
  cases ares with
  | error e => simpa [polyFinish] using h
  | ok v =>
    cases v with
    | replay r => simpa [polyFinish] using h
    | created txId =>
      simp only [polyFinish, polyExternalPhase, polyExternalRest]
      cases withPreflight <;> cases env.preflight <;> cases env.decrypt <;>
        cases env.adapter <;> simp [List.mem_append, h]

theorem txSend_replay_behaviour (env : SendCmdEnv) (st : DbState)
    (walletId : String) (opts : TxSendOpts) (ex : OperationRow)
    (hsession : env.sessionValid = true) (htok : txSendTokenAllowed opts = true)
    (haddr : env.addrValid = true) (hamt : ¬(opts.amount ≤ 0))
    (hdry : opts.dryRun = false)
    (hvalid : isValidIdempotencyKey opts.idempotencyKey = true)
    (hfind : getOperationByIdempotencyKey st.operations opts.idempotencyKey = some ex)
    (hp : ex.status ≠ "pending") (hf : ex.status ≠ "failed")
    (hscope : ∀ row ∈ st.idempotency_keys,
      row.key = opts.idempotencyKey → row.scope = "tx_send") :
    (txSendCommand env st walletId opts).res =
      .ok { tx_id := ex.tx_id, tx_hash := ex.tx_hash, status := ex.status,
            token := ex.token.getD (txSendNormalizedToken opts),
            amount := ex.amount.getD opts.amount,
            toAddr := ex.to_address.getD opts.toAddr } ∧
    (txSendCommand env st walletId opts).db.operations = st.operations ∧
    (txSendCommand env st walletId opts).db.audit_logs = st.audit_logs ∧
    (txSendCommand env st walletId opts).events = [] := by
  rw [txSendCommand_eq_finish env st walletId opts hsession htok haddr hamt hdry]
  obtain ⟨keys2, hA⟩ := orchestrationAtomic_replay env.atomic st walletId "tx_send"
    "send" (txSendNormalizedToken opts) opts.amount (some opts.toAddr) false
    opts.idempotencyKey ex hvalid hfind hp hf hscope
  rw [hA]
  simp [txSendFinish]

theorem txSend_retry_behaviour (env : SendCmdEnv) (st : DbState)
    (walletId : String) (opts : TxSendOpts) (ex : OperationRow)
    (hsession : env.sessionValid = true) (htok : txSendTokenAllowed opts = true)
    (haddr : env.addrValid = true) (hamt : ¬(opts.amount ≤ 0))
    (hdry : opts.dryRun = false)
    (hvalid : isValidIdempotencyKey opts.idempotencyKey = true)
    (hfind : getOperationByIdempotencyKey st.operations opts.idempotencyKey = some ex)
    (hstatus : ex.status = "pending" ∨ ex.status = "failed")
    (hscope : ∀ row ∈ st.idempotency_keys,
      row.key = opts.idempotencyKey → row.scope = "tx_send")
    (huniq : ∀ op ∈ st.operations, op.idempotency_key = some opts.idempotencyKey →
      op.tx_id = ex.tx_id) :
    (txSendCommand env st walletId opts).res =
      (txSendCommand env (cleanAfterRetry st opts.idempotencyKey ex.tx_id)
        walletId opts).res ∧
    (txSendCommand env st walletId opts).events =
      (txSendCommand env (cleanAfterRetry st opts.idempotencyKey ex.tx_id)
        walletId opts).events ∧
    (∀ r, (txSendCommand env st walletId opts).res = .ok r →
      (txSendCommand env st walletId opts).db =
        (txSendCommand env (cleanAfterRetry st opts.idempotencyKey ex.tx_id)
          walletId opts).db) ∧
    Event.policyEval ∈ (txSendCommand env st walletId opts).events := by
  rw [txSendCommand_eq_finish env st walletId opts hsession htok haddr hamt hdry,
      txSendCommand_eq_finish env (cleanAfterRetry st opts.idempotencyKey ex.tx_id)
        walletId opts hsession htok haddr hamt hdry]
  obtain ⟨hA, hB⟩ := orchestrationAtomic_retry env.atomic st walletId "tx_send"
    "send" (txSendNormalizedToken opts) opts.amount (some opts.toAddr) false
    opts.idempotencyKey ex hvalid hfind hstatus hscope huniq
  rw [hA, hB]
  obtain ⟨hres, hev, hpe, hnorep, hdb⟩ := atomicTail_cases env.atomic st
    (cleanAfterRetry st opts.idempotencyKey ex.tx_id)
    ⟨st.operations.filter (fun op => op.tx_id != ex.tx_id),
     (st.idempotency_keys.filter (fun r => r.key != opts.idempotencyKey)) ++
       [⟨opts.idempotencyKey, "tx_send", none, "reserved", env.atomic.nowMs⟩],
     st.audit_logs⟩
    walletId "send" (txSendNormalizedToken opts) opts.amount (some opts.toAddr)
    false opts.idempotencyKey
  obtain ⟨hr, he, hd⟩ := txSendFinish_congr env walletId opts
    (txSendNormalizedToken opts) _ _ hres hev hnorep hdb
  exact ⟨hr, he, hd, txSendFinish_policyEval env walletId opts
    (txSendNormalizedToken opts) _ hpe⟩

theorem polySell_replay_behaviour (env : PolyCmdEnv) (st : DbState)
    (walletId : String) (opts : PolySellOpts) (ex : OperationRow)
    (hsession : env.sessionValid = true) (hamt : ¬(opts.size ≤ 0))
    (hdry : opts.dryRun = false)
    (hvalid : isValidIdempotencyKey opts.idempotencyKey = true)
    (hfind : getOperationByIdempotencyKey st.operations opts.idempotencyKey = some ex)
    (hp : ex.status ≠ "pending") (hf : ex.status ≠ "failed")
    (hscope : ∀ row ∈ st.idempotency_keys,
      row.key = opts.idempotencyKey → row.scope = "predict_sell") :
    (polySellCommand env st walletId opts).res = .ok (polyReplayResult ex) ∧
    (polySellCommand env st walletId opts).db.operations = st.operations ∧
    (polySellCommand env st walletId opts).db.audit_logs = st.audit_logs ∧
    (polySellCommand env st walletId opts).events = [] := by
  rw [polySellCommand_eq_finish env st walletId opts hsession hamt hdry]
  obtain ⟨keys2, hA⟩ := orchestrationAtomic_replay env.atomic st walletId
    "predict_sell" "predict_sell" "USDC" opts.size none true
    opts.idempotencyKey ex hvalid hfind hp hf hscope
  rw [hA]
  simp [polyFinish]

theorem polySell_retry_behaviour (env : PolyCmdEnv) (st : DbState)
    (walletId : String) (opts : PolySellOpts) (ex : OperationRow)
    (hsession : env.sessionValid = true) (hamt : ¬(opts.size ≤ 0))
    (hdry : opts.dryRun = false)
    (hvalid : isValidIdempotencyKey opts.idempotencyKey = true)
    (hfind : getOperationByIdempotencyKey st.operations opts.idempotencyKey = some ex)
    (hstatus : ex.status = "pending" ∨ ex.status = "failed")
    (hscope : ∀ row ∈ st.idempotency_keys,
      row.key = opts.idempotencyKey → row.scope = "predict_sell")
    (huniq : ∀ op ∈ st.operations, op.idempotency_key = some opts.idempotencyKey →
      op.tx_id = ex.tx_id) :
    (polySellCommand env st walletId opts).res =
      (polySellCommand env (cleanAfterRetry st opts.idempotencyKey ex.tx_id)
        walletId opts).res ∧
    (polySellCommand env st walletId opts).events =
      (polySellCommand env (cleanAfterRetry st opts.idempotencyKey ex.tx_id)
        walletId opts).events ∧
    (∀ r, (polySellCommand env st walletId opts).res = .ok r →
      (polySellCommand env st walletId opts).db =
        (polySellCommand env (cleanAfterRetry st opts.idempotencyKey ex.tx_id)
          walletId opts).db) ∧
    Event.policyEval ∈ (polySellCommand env st walletId opts).events := by
  rw [polySellCommand_eq_finish env st walletId opts hsession hamt hdry,
      polySellCommand_eq_finish env (cleanAfterRetry st opts.idempotencyKey ex.tx_id)
        walletId opts hsession hamt hdry]
  obtain ⟨hA, hB⟩ := orchestrationAtomic_retry env.atomic st walletId
    "predict_sell" "predict_sell" "USDC" opts.size none true
    opts.idempotencyKey ex hvalid hfind hstatus hscope huniq
  rw [hA, hB]
  obtain ⟨hres, hev, hpe, hnorep, hdb⟩ := atomicTail_cases env.atomic st
    (cleanAfterRetry st opts.idempotencyKey ex.tx_id)
    ⟨st.operations.filter (fun op => op.tx_id != ex.tx_id),
     (st.idempotency_keys.filter (fun r => r.key != opts.idempotencyKey)) ++
       [⟨opts.idempotencyKey, "predict_sell", none, "reserved", env.atomic.nowMs⟩],
     st.audit_logs⟩
    walletId "predict_sell" "USDC" opts.size none true opts.idempotencyKey
  obtain ⟨hr, he, hd⟩ := polyFinish_congr env walletId "predict.sell"
    opts.idempotencyKey false _ _ hres hev hnorep hdb
  exact ⟨hr, he, hd, polyFinish_policyEval env walletId "predict.sell"
    opts.idempotencyKey false _ hpe⟩

/-- C1: a send or sell invocation whose idempotency key maps to an
Operation that is neither pending nor failed returns that Operation
projection unchanged with an empty collaborator trace — no policy
evaluation, no external call, no ledger insert, audit log untouched;
when the mapped Operation is pending or failed, the run deletes it and
its key row, re-reserves and re-evaluates: its outcome and trace equal
those of a fresh run on the cleaned store (state equal whenever the run
succeeds; a denial rolls the whole transaction back), and policy is
re-evaluated. -/
theorem claim_C1 :
    (∀ (env : SendCmdEnv) (st : DbState) (walletId : String) (opts : TxSendOpts)
       (ex : OperationRow),
      env.sessionValid = true → txSendTokenAllowed opts = true →
      env.addrValid = true → ¬(opts.amount ≤ 0) → opts.dryRun = false →
      isValidIdempotencyKey opts.idempotencyKey = true →
      getOperationByIdempotencyKey st.operations opts.idempotencyKey = some ex →
      ex.status ≠ "pending" → ex.status ≠ "failed" →
      (∀ row ∈ st.idempotency_keys,
        row.key = opts.idempotencyKey → row.scope = "tx_send") →
      (txSendCommand env st walletId opts).res =
        .ok { tx_id := ex.tx_id, tx_hash := ex.tx_hash, status := ex.status,
              token := ex.token.getD (txSendNormalizedToken opts),
              amount := ex.amount.getD opts.amount,
              toAddr := ex.to_address.getD opts.toAddr } ∧
      (txSendCommand env st walletId opts).db.operations = st.operations ∧
      (txSendCommand env st walletId opts).db.audit_logs = st.audit_logs ∧
      (txSendCommand env st walletId opts).events = []) ∧
    (∀ (env : SendCmdEnv) (st : DbState) (walletId : String) (opts : TxSendOpts)
       (ex : OperationRow),
      env.sessionValid = true → txSendTokenAllowed opts = true →
      env.addrValid = true → ¬(opts.amount ≤ 0) → opts.dryRun = false →
      isValidIdempotencyKey opts.idempotencyKey = true →
      getOperationByIdempotencyKey st.operations opts.idempotencyKey = some ex →
      (ex.status = "pending" ∨ ex.status = "failed") →
      (∀ row ∈ st.idempotency_keys,
        row.key = opts.idempotencyKey → row.scope = "tx_send") →
      (∀ op ∈ st.operations, op.idempotency_key = some opts.idempotencyKey →
        op.tx_id = ex.tx_id) →
      (txSendCommand env st walletId opts).res =
        (txSendCommand env (cleanAfterRetry st opts.idempotencyKey ex.tx_id)
          walletId opts).res ∧
      (txSendCommand env st walletId opts).events =
        (txSendCommand env (cleanAfterRetry st opts.idempotencyKey ex.tx_id)
          walletId opts).events ∧
      (∀ r, (txSendCommand env st walletId opts).res = .ok r →
        (txSendCommand env st walletId opts).db =
          (txSendCommand env (cleanAfterRetry st opts.idempotencyKey ex.tx_id)
            walletId opts).db) ∧
      Event.policyEval ∈ (txSendCommand env st walletId opts).events) ∧
    (∀ (env : PolyCmdEnv) (st : DbState) (walletId : String) (opts : PolySellOpts)
       (ex : OperationRow),
      env.sessionValid = true → ¬(opts.size ≤ 0) → opts.dryRun = false →
      isValidIdempotencyKey opts.idempotencyKey = true →
      getOperationByIdempotencyKey st.operations opts.idempotencyKey = some ex →
      ex.status ≠ "pending" → ex.status ≠ "failed" →
      (∀ row ∈ st.idempotency_keys,
        row.key = opts.idempotencyKey → row.scope = "predict_sell") →
      (polySellCommand env st walletId opts).res = .ok (polyReplayResult ex) ∧
      (polySellCommand env st walletId opts).db.operations = st.operations ∧
      (polySellCommand env st walletId opts).db.audit_logs = st.audit_logs ∧
      (polySellCommand env st walletId opts).events = []) ∧
    (∀ (env : PolyCmdEnv) (st : DbState) (walletId : String) (opts : PolySellOpts)
       (ex : OperationRow),
      env.sessionValid = true → ¬(opts.size ≤ 0) → opts.dryRun = false →
      isValidIdempotencyKey opts.idempotencyKey = true →
      getOperationByIdempotencyKey st.operations opts.idempotencyKey = some ex →
      (ex.status = "pending" ∨ ex.status = "failed") →
      (∀ row ∈ st.idempotency_keys,
        row.key = opts.idempotencyKey → row.scope = "predict_sell") →
      (∀ op ∈ st.operations, op.idempotency_key = some opts.idempotencyKey →
        op.tx_id = ex.tx_id) →
      (polySellCommand env st walletId opts).res =
        (polySellCommand env (cleanAfterRetry st opts.idempotencyKey ex.tx_id)
          walletId opts).res ∧
      (polySellCommand env st walletId opts).events =
        (polySellCommand env (cleanAfterRetry st opts.idempotencyKey ex.tx_id)
          walletId opts).events ∧
      (∀ r, (polySellCommand env st walletId opts).res = .ok r →
        (polySellCommand env st walletId opts).db =
          (polySellCommand env (cleanAfterRetry st opts.idempotencyKey ex.tx_id)
            walletId opts).db) ∧
      Event.policyEval ∈ (polySellCommand env st walletId opts).events) :=
  ⟨txSend_replay_behaviour, txSend_retry_behaviour,
   polySell_replay_behaviour, polySell_retry_behaviour⟩

/-- Completed send operation bound to key kS. -/
def exSendDone : OperationRow :=
  { tx_id := "t10", wallet_id := "w1", kind := "send", status := "broadcasted",
    token := some "USDC", amount := some 7, to_address := some "0xbb",
    tx_hash := some "0xh", provider_order_id := none, idempotency_key := some "kS",
    meta_json := some "m", created_at := "2026-10-11T01:00:00.000Z",
    updated_at := "2026-10-11T01:00:00.000Z" }

def stSendReplay : DbState :=
  ⟨[exSendDone], [⟨"kS", "tx_send", some "t10", "completed", 1000⟩], []⟩

def optsSendC1 : TxSendOpts :=
  { toAddr := "0xbb", token := "USDC", amount := 7, idempotencyKey := "kS" }

/-- Failed leftover of a prior send attempt with key kS. -/
def exSendFailed : OperationRow := { exSendDone with status := "failed" }

def stSendRetry : DbState :=
  ⟨[exSendFailed], [⟨"kS", "tx_send", none, "reserved", 1000⟩], []⟩

/-- Submitted sell operation bound to key kP. -/
def exSellDone : OperationRow :=
  { tx_id := "t20", wallet_id := "w1", kind := "predict_sell",
    status := "submitted", token := some "USDC", amount := some 3,
    to_address := none, tx_hash := none, provider_order_id := some "o1",
    idempotency_key := some "kP", meta_json := some "mm",
    created_at := "2026-10-11T01:00:00.000Z",
    updated_at := "2026-10-11T01:00:00.000Z" }

def stSellReplay : DbState :=
  ⟨[exSellDone], [⟨"kP", "predict_sell", some "t20", "completed", 1000⟩], []⟩

def optsSellC1 : PolySellOpts :=
  { position := "p1", size := 3, idempotencyKey := "kP" }

/-- Pending leftover of a prior sell attempt with key kP. -/
def exSellPending : OperationRow :=
  { exSellDone with status := "pending", provider_order_id := none }

def stSellRetry : DbState :=
  ⟨[exSellPending], [⟨"kP", "predict_sell", none, "reserved", 1000⟩], []⟩

theorem claim_C1_witness :
    ((txSendCommand sendEnvC9 stSendReplay "w1" optsSendC1).res =
        .ok { tx_id := exSendDone.tx_id, tx_hash := exSendDone.tx_hash,
              status := exSendDone.status,
              token := exSendDone.token.getD (txSendNormalizedToken optsSendC1),
              amount := exSendDone.amount.getD optsSendC1.amount,
              toAddr := exSendDone.to_address.getD optsSendC1.toAddr } ∧
      (txSendCommand sendEnvC9 stSendReplay "w1" optsSendC1).db.operations =
        stSendReplay.operations ∧
      (txSendCommand sendEnvC9 stSendReplay "w1" optsSendC1).db.audit_logs =
        stSendReplay.audit_logs ∧
      (txSendCommand sendEnvC9 stSendReplay "w1" optsSendC1).events = []) ∧
    ((txSendCommand sendEnvC9 stSendRetry "w1" optsSendC1).res =
        (txSendCommand sendEnvC9
          (cleanAfterRetry stSendRetry optsSendC1.idempotencyKey exSendFailed.tx_id)
          "w1" optsSendC1).res ∧
      (txSendCommand sendEnvC9 stSendRetry "w1" optsSendC1).events =
        (txSendCommand sendEnvC9
          (cleanAfterRetry stSendRetry optsSendC1.idempotencyKey exSendFailed.tx_id)
          "w1" optsSendC1).events ∧
      (∀ r, (txSendCommand sendEnvC9 stSendRetry "w1" optsSendC1).res = .ok r →
        (txSendCommand sendEnvC9 stSendRetry "w1" optsSendC1).db =
          (txSendCommand sendEnvC9
            (cleanAfterRetry stSendRetry optsSendC1.idempotencyKey exSendFailed.tx_id)
            "w1" optsSendC1).db) ∧
      Event.policyEval ∈ (txSendCommand sendEnvC9 stSendRetry "w1" optsSendC1).events) ∧
    ((polySellCommand sellEnvC7 stSellReplay "w1" optsSellC1).res =
        .ok (polyReplayResult exSellDone) ∧
      (polySellCommand sellEnvC7 stSellReplay "w1" optsSellC1).db.operations =
        stSellReplay.operations ∧
      (polySellCommand sellEnvC7 stSellReplay "w1" optsSellC1).db.audit_logs =
        stSellReplay.audit_logs ∧
      (polySellCommand sellEnvC7 stSellReplay "w1" optsSellC1).events = []) ∧
    ((polySellCommand sellEnvC7 stSellRetry "w1" optsSellC1).res =
        (polySellCommand sellEnvC7
          (cleanAfterRetry stSellRetry optsSellC1.idempotencyKey exSellPending.tx_id)
          "w1" optsSellC1).res ∧
      (polySellCommand sellEnvC7 stSellRetry "w1" optsSellC1).events =
        (polySellCommand sellEnvC7
          (cleanAfterRetry stSellRetry optsSellC1.idempotencyKey exSellPending.tx_id)
          "w1" optsSellC1).events ∧
      (∀ r, (polySellCommand sellEnvC7 stSellRetry "w1" optsSellC1).res = .ok r →
        (polySellCommand sellEnvC7 stSellRetry "w1" optsSellC1).db =
          (polySellCommand sellEnvC7
            (cleanAfterRetry stSellRetry optsSellC1.idempotencyKey exSellPending.tx_id)
            "w1" optsSellC1).db) ∧
      Event.policyEval ∈
        (polySellCommand sellEnvC7 stSellRetry "w1" optsSellC1).events) :=
  ⟨claim_C1.1 sendEnvC9 stSendReplay "w1" optsSendC1 exSendDone rfl (by decide)
     rfl (by decide) rfl (by decide) rfl (by decide) (by decide) (by decide),
   claim_C1.2.1 sendEnvC9 stSendRetry "w1" optsSendC1 exSendFailed rfl (by decide)
     rfl (by decide) rfl (by decide) rfl (Or.inr rfl) (by decide) (by decide),
   claim_C1.2.2.1 sellEnvC7 stSellReplay "w1" optsSellC1 exSellDone rfl
     (by decide) rfl (by decide) rfl (by decide) (by decide) (by decide),
   claim_C1.2.2.2 sellEnvC7 stSellRetry "w1" optsSellC1 exSellPending rfl
     (by decide) rfl (by decide) rfl (Or.inl rfl) (by decide) (by decide)⟩

/-! ## External-call failure handling (C8) -/

def atomicEnvC8 : AtomicEnv :=
  { policy := policyOpen, nowMs := 1760000000000,
    nowIso := "2026-10-11T09:00:00.000Z", freshTxId := "txS8", metaJson := "m",
    reqJson := "q", auditId := "a8", auditNow := "2026-10-11T09:01:30.000Z",
    sha256 := idStr, redactSecrets := idStr }

def sellEnvC8 : PolyCmdEnv :=
  { atomic := atomicEnvC8, sessionValid := true, preflight := none,
    decrypt := none, adapter := .error ⟨"ERR_POLYMARKET_TIMEOUT"⟩,
    stringifyPolyResult := fun _ => "r" }

/-- C8 counterexample: a provider sell whose adapter call fails after the
pending ledger record was committed propagates the classified error but
leaves the Operation at status pending — it is never set to failed — and
the idempotency row stays reserved. -/
theorem claim_C8_counterexample :
    (polySellCommand sellEnvC8 ⟨[], [], []⟩ "w1"
        ⟨"p1", 4, "k8", false⟩).res = .error ⟨"ERR_POLYMARKET_TIMEOUT"⟩ ∧
    ((polySellCommand sellEnvC8 ⟨[], [], []⟩ "w1"
        ⟨"p1", 4, "k8", false⟩).db.operations.map (fun op => op.status)) =
      ["pending"] ∧
    ((polySellCommand sellEnvC8 ⟨[], [], []⟩ "w1"
        ⟨"p1", 4, "k8", false⟩).db.idempotency_keys.map (fun r => r.status)) =
      ["reserved"] := by decide

theorem updateOperationStatus_marks (ops : List OperationRow)
    (txId s now : String) :
    ∀ op ∈ updateOperationStatus ops txId s now, op.tx_id = txId → op.status = s := by
  intro op hop htx
  unfold updateOperationStatus at hop
  obtain ⟨orig, _, heq⟩ := List.mem_map.mp hop
  by_cases hb : orig.tx_id == txId
  · rw [if_pos hb] at heq
    rw [← heq]
  · rw [if_neg hb] at heq
    subst heq
    exact absurd (by simp [htx]) hb

/-- C8 (amended): for on-chain sends, a failure of the decrypt/sign/
broadcast phase after the pending record exists is caught, the Operation
is set to failed, the raw message is classified into the error taxonomy
(insufficient funds, transaction failure, RPC unavailable, internal) and
the idempotency rows are left untouched (not completed); for provider
operations, decrypt and adapter failures propagate uncaught with the
store unchanged, leaving the Operation pending and its key reserved. In
both cases the key is not completed and the left-over status is pending
or failed, the statuses the delete-and-retry path of C1 accepts. -/
theorem claim_C8 :
    (∀ (env : ExecSendEnv) (st : DbState) (token : String) (amount : ℚ)
       (toAddr key txId raw : String),
      env.verifyChain = none → env.preflight = none →
      env.execPhase = .error raw →
      executeSend env st token amount toAddr key txId =
        (.error ⟨classifySendFailure raw⟩,
         { st with operations :=
             updateOperationStatus st.operations txId "failed" env.nowFail }) ∧
      (executeSend env st token amount toAddr key txId).2.idempotency_keys =
        st.idempotency_keys ∧
      (∀ op ∈ (executeSend env st token amount toAddr key txId).2.operations,
        op.tx_id = txId → op.status = "failed") ∧
      classifySendFailure raw ∈
        ["ERR_INSUFFICIENT_FUNDS", "ERR_TX_FAILED", "ERR_RPC_UNAVAILABLE",
         "ERR_INTERNAL"]) ∧
    (∀ (env : PolyCmdEnv) (db : DbState) (walletId action txId key : String)
       (events : List Event) (e : AppError),
      env.decrypt = none → env.adapter = .error e →
      polyExternalRest env db walletId action txId key events =
        ⟨.error e, db, events ++ [.externalCall]⟩) ∧
    (∀ (env : PolyCmdEnv) (db : DbState) (walletId action txId key : String)
       (events : List Event) (e : AppError),
      env.decrypt = some e →
      polyExternalRest env db walletId action txId key events =
        ⟨.error e, db, events ++ [.externalCall]⟩) := by
  refine ⟨fun env st token amount toAddr key txId raw hv hp he => ?_,
          fun env db walletId action txId key events e hd ha => ?_,
          fun env db walletId action txId key events e hd => ?_⟩
  · have hrun : executeSend env st token amount toAddr key txId =
        (.error ⟨classifySendFailure raw⟩,
         { st with operations :=
             updateOperationStatus st.operations txId "failed" env.nowFail }) := by
      unfold executeSend
      rw [hv, hp, he]
    refine ⟨hrun, by rw [hrun], ?_, ?_⟩
    · rw [hrun]
      exact updateOperationStatus_marks st.operations txId "failed" env.nowFail
    · unfold classifySendFailure mapRpcErrorCode
      split_ifs <;> simp
  · unfold polyExternalRest
    rw [hd, ha]
  · unfold polyExternalRest
    rw [hd]

/-- Pending send operation awaiting its broadcast, with a reserved key. -/
def stC8pend : DbState :=
  ⟨[{ tx_id := "txB", wallet_id := "w1", kind := "send", status := "pending",
      token := some "USDC", amount := some 7, to_address := some "0xbb",
      tx_hash := none, provider_order_id := none, idempotency_key := some "kB",
      meta_json := some "m", created_at := "2026-10-11T09:00:00.000Z",
      updated_at := "2026-10-11T09:00:00.000Z" }],
   [⟨"kB", "tx_send", none, "reserved", 1000⟩], []⟩

def execEnvC8 : ExecSendEnv :=
  { verifyChain := none, preflight := none, execPhase := .error "nonce too low",
    receipt := none, nowBroadcast := "2026-10-11T09:02:00.000Z",
    nowReceipt := "2026-10-11T09:02:00.000Z",
    nowFail := "2026-10-11T09:02:00.000Z" }

theorem claim_C8_witness :
    (executeSend execEnvC8 stC8pend "USDC" 7 "0xbb" "kB" "txB" =
        (.error ⟨classifySendFailure "nonce too low"⟩,
         { stC8pend with
           operations := updateOperationStatus stC8pend.operations "txB" "failed" execEnvC8.nowFail }) ∧
      (executeSend execEnvC8 stC8pend "USDC" 7 "0xbb" "kB" "txB").2.idempotency_keys =
        stC8pend.idempotency_keys ∧
      (∀ op ∈ (executeSend execEnvC8 stC8pend "USDC" 7 "0xbb" "kB" "txB").2.operations,
        op.tx_id = "txB" → op.status = "failed") ∧
      classifySendFailure "nonce too low" ∈
        ["ERR_INSUFFICIENT_FUNDS", "ERR_TX_FAILED", "ERR_RPC_UNAVAILABLE",
         "ERR_INTERNAL"]) ∧
    (polyExternalRest sellEnvC8 stC8pend "w1" "predict.sell" "txB" "kB"
        [Event.policyEval, Event.ledgerInsert] =
      ⟨.error ⟨"ERR_POLYMARKET_TIMEOUT"⟩, stC8pend,
       [Event.policyEval, Event.ledgerInsert] ++ [.externalCall]⟩) ∧
    (polyExternalRest { sellEnvC8 with decrypt := some ⟨"ERR_NEED_UNLOCK"⟩ }
        stC8pend "w1" "predict.sell" "txB" "kB"
        [Event.policyEval, Event.ledgerInsert] =
      ⟨.error ⟨"ERR_NEED_UNLOCK"⟩, stC8pend,
       [Event.policyEval, Event.ledgerInsert] ++ [.externalCall]⟩) :=
  ⟨claim_C8.1 execEnvC8 stC8pend "USDC" 7 "0xbb" "kB" "txB" "nonce too low"
     rfl rfl rfl,
   claim_C8.2.1 sellEnvC8 stC8pend "w1" "predict.sell" "txB" "kB"
     [Event.policyEval, Event.ledgerInsert] ⟨"ERR_POLYMARKET_TIMEOUT"⟩ rfl rfl,
   claim_C8.2.2 { sellEnvC8 with decrypt := some ⟨"ERR_NEED_UNLOCK"⟩ }
     stC8pend "w1" "predict.sell" "txB" "kB"
     [Event.policyEval, Event.ledgerInsert] ⟨"ERR_NEED_UNLOCK"⟩ rfl⟩

end AW
